import Mathlib

/-!
# lastfm-tiler-go: a shallow embedding of `lib.go`

The Go package builds a square mosaic of album covers.  This file embeds the
functions of `src/lib.go` as Lean definitions and proves properties about them.

Conventions of the embedding

* Go `int` is modelled as `Int`; the results of the multiplications performed by
  `MakeTiledGrid` are wrapped to the signed 64-bit range by `wrap64`.
* `float64(i)` on an `int` is modelled exactly: the value is rounded to a 53-bit
  significand, ties to even (`float64OfInt`).  `math.Mod` on two floats is exact.
* A run-time panic is an explicit result (`none`, or `Outcome.panic`); a goroutine that
  blocks for ever is an explicit result too (`Outcome.blocked`, `TileStatus.blocked`).
* Allocation: `make` panics when the size in bytes exceeds `maxAlloc` (64-bit Linux).
* The collaborators outside the repository (the Last.fm client, `net/http`,
  `image.Decode`, the resampling filter of `imaging.Resize`) and the capacity of the
  channel `tilePool` are fields of `World`.
* Goroutines: the order in which the tile results arrive on the channel `tiles`
  is a parameter (`arrival`); the limiter `tilePool` is a transition system.
-/

namespace LastfmTiler

/-! ## Machine arithmetic -/

/-- Two's-complement wrap of a mathematical integer into the range of a 64-bit Go `int`. -/
def wrap64 (x : Int) : Int := (x + 2 ^ 63) % 2 ^ 64 - 2 ^ 63

/-- Number of low bits that do not fit into a 53-bit significand (`fuel` bounds the search). -/
def droppedBits : Nat → Nat → Nat
  | 0, _ => 0
  | fuel + 1, n => if n < 2 ^ 53 then 0 else droppedBits fuel (n / 2) + 1

/-- Value of `float64(n)` for a natural number below `2^64`: round to nearest, ties to even. -/
def float64OfNat (n : Nat) : Nat :=
  if n < 2 ^ 53 then n
  else
    let e := droppedBits 11 n
    let q := n / 2 ^ e
    let r := n % 2 ^ e
    if 2 * r > 2 ^ e ∨ (2 * r = 2 ^ e ∧ q % 2 = 1) then (q + 1) * 2 ^ e else q * 2 ^ e

/-- Value of the Go conversion `float64(i)` of an `int`; the result is always an integer. -/
def float64OfInt (i : Int) : Int :=
  if 0 ≤ i then (float64OfNat i.toNat : Int) else -(float64OfNat (-i).toNat : Int)

/-- Go `math.Mod(x, y)` on integer-valued floats with `y ≠ 0`: exact, sign of `x`. -/
def mathMod (x y : Int) : Int := Int.tmod x y

/-! ## Data model -/

/-- An image candidate of an album: the anonymous struct of `lastfm` (`Size`, `Url`). -/
structure AlbumImage where
  Size : String
  Url : String
  deriving DecidableEq, Repr

/-- An album of the provider's answer; only its image candidates are used. -/
structure Album where
  Images : List AlbumImage
  deriving DecidableEq, Repr

/-- The `*log.Logger` of a `Config`: the one created by `validate`, or one given by the caller. -/
inductive Logger where
  | devNull
  | user (id : Nat)
  deriving DecidableEq, Repr

/-- Config ... For MakeTiledGrid. -/
structure Config where
  LastfmAPIKey : String
  LastfmPeriod : String
  ImgSizePx : Int
  GridSize : Int
  Logger : Option Logger
  deriving DecidableEq, Repr

/-- A colour `color.NRGBA`. -/
structure NRGBA where
  R : Nat
  G : Nat
  B : Nat
  A : Nat
  deriving DecidableEq, Repr

/-- The fill colour `color.NRGBA{0, 0, 0, 0}` used for the canvas and for placeholders. -/
def transparent : NRGBA := ⟨0, 0, 0, 0⟩

/-- A raster with bounds `(0,0)-(w,h)`; `px x y` is the colour at column `x`, row `y`. -/
@[ext]
structure Image where
  w : Int
  h : Int
  px : Int → Int → NRGBA

/-- The tagged tile result sent on the channel `tiles`. -/
structure orderedImage where
  img : Image
  i : Int

/-- An HTTP response as far as `loadImg` looks at it. -/
structure Response where
  status : Nat
  body : List Nat
  deriving DecidableEq, Repr

/-- The collaborators outside the repository. -/
structure World where
  /-- The call `lastfmAPI.User.GetTopAlbums` of a client made with the given API key,
  with the parameters user, period, limit. -/
  getTopAlbums : String → String → String → Int → Except String (List Album)
  /-- The call `http.Get`: a transport error, or a response of any status. -/
  httpGet : String → Except String Response
  /-- The call `image.Decode` on a response body. -/
  decode : List Nat → Except String Image
  /-- The pixels that the Lanczos filter of `imaging.Resize` computes for a result of the
  given side (floating point, not modelled). -/
  resample : Image → Int → Int → Int → NRGBA
  /-- The capacity of the channel `tilePool` that the package function `init` made. -/
  poolSize : Int

/-! ## `imaging` primitives -/

/-- The runtime constant `maxAlloc` of 64-bit Linux: `make` panics for a larger byte size
(and so for every size that overflows `int`). -/
def maxAlloc : Int := 2 ^ 48

/-- The empty image `&image.NRGBA{}`. -/
def emptyImage : Image := ⟨0, 0, fun _ _ => ⟨0, 0, 0, 0⟩⟩

/-- The library call `imaging.New (w, h, fill)`: the empty image when a side is not positive,
a panic (`none`) when `image.NewNRGBA` cannot allocate the pixels, and otherwise an image of
the given size filled with the colour. -/
def imagingNew (w h : Int) (fill : NRGBA) : Option Image :=
  if w ≤ 0 ∨ h ≤ 0 then some emptyImage
  else if 4 * w * h ≤ maxAlloc then
    some ⟨w, h, fun x y => if 0 ≤ x ∧ x < w ∧ 0 ≤ y ∧ y < h then fill else ⟨0, 0, 0, 0⟩⟩
  else none

/-- The library call `imaging.Resize (img, side, side, imaging.Lanczos)` as `addTile` makes
it: the empty image when the side is not positive or the source is empty, a copy of the
source when it already has the size, and otherwise a new image of that size (a panic, `none`,
when it cannot be allocated) with the resampled pixels. -/
def imagingResize (resample : Image → Int → Int → Int → NRGBA) (img : Image) (side : Int) :
    Option Image :=
  if side ≤ 0 then some emptyImage
  else if img.w ≤ 0 ∨ img.h ≤ 0 then some emptyImage
  else if img.w = side ∧ img.h = side then some img
  else if 4 * side * side ≤ maxAlloc then some ⟨side, side, resample img side⟩
  else none

/-- The library call `imaging.Paste (background, img, image.Pt x0 y0)`: a copy of the
background in which the pixels of the intersection of the pasted rectangle with the
background come from `img`. -/
def imagingPaste (background img : Image) (x0 y0 : Int) : Image :=
  { w := background.w
    h := background.h
    px := fun x y =>
      if 0 ≤ x ∧ x < background.w ∧ 0 ≤ y ∧ y < background.h ∧
          x0 ≤ x ∧ x < x0 + img.w ∧ y0 ≤ y ∧ y < y0 + img.h
      then img.px (x - x0) (y - y0) else background.px x y }

/-! ## `chooseImg` -/

/-- The loop `for _, img := range imgs { if img.Size == label { return img.Url } }`:
the URL returned by the loop, or `none` when the loop falls through. -/
def firstOfSize (label : String) : List AlbumImage → Option String
  | [] => none
  | img :: rest => if img.Size = label then some img.Url else firstOfSize label rest

/-- The function `chooseImg`; `none` is the index-out-of-range panic of `imgs[0]`. -/
def chooseImg (imgs : List AlbumImage) : Option String :=
  match firstOfSize "extralarge" imgs with
  | some url => some url
  | none =>
    match firstOfSize "large" imgs with
    | some url => some url
    | none =>
      match imgs with
      | [] => none
      | img :: _ => some img.Url

/-! ## `Config.validate` -/

/-- The method `(c *Config) validate()`: the Config after the call and the returned error
(`none` is nil). -/
def Config.validate (c : Config) : Config × Option String :=
  if c.LastfmAPIKey = "" then (c, some "lastfmApiKey is required in Config")
  else
    let c1 := if c.LastfmPeriod = "" then { c with LastfmPeriod := "7day" } else c
    let c2 := if c1.GridSize ≤ 0 then { c1 with GridSize := 3 } else c1
    let c3 := if c2.ImgSizePx ≤ 0 then { c2 with ImgSizePx := 174 } else c2
    let c4 := if c3.Logger = none then { c3 with Logger := some Logger.devNull } else c3
    (c4, none)

/-! ## `loadImg` -/

/-- What a call of `loadImg` does: the returned pair as an `Except`, and the URLs it passed
to `http.Get`, in order. -/
structure LoadRun where
  result : Except String Image
  requests : List String

/-- The function `loadImg`. -/
def loadImg (W : World) (url : String) : LoadRun :=
  match W.httpGet url with
  | .error err =>
    ⟨.error ("Couldn't load image: " ++ url ++ " with error: " ++ err), [url]⟩
  | .ok response =>
    match W.decode response.body with
    | .error err =>
      ⟨.error ("Couldn't load image: " ++ url ++ " with error: " ++ err), [url]⟩
    | .ok img => ⟨.ok img, [url]⟩

/-! ## `addTile` -/

/-- How an `addTile` goroutine ends: it returns, it blocks for ever on `tilePool <- i`, or it
panics. -/
inductive TileStatus where
  | returned
  | blocked
  | panicked
  deriving DecidableEq, Repr

/-- What one `addTile` goroutine does: the values it sends on `tiles`, the URLs it fetched,
the lines it logged (URL and error text) and how it ends.  The interleaving of the goroutines
on `tilePool` is the subject of the transition system at the end of the definitions. -/
structure TileRun where
  sent : List orderedImage
  requests : List String
  logged : List (String × String)
  status : TileStatus

/-- The last statements of `addTile`: resize (when asked) and send the result. -/
def sendTile (W : World) (c : Config) (i : Int) (doResize : Bool) (requests : List String)
    (logged : List (String × String)) : Option Image → TileRun
  | none => ⟨[], requests, logged, .panicked⟩
  | some img =>
    if doResize then
      match imagingResize W.resample img c.ImgSizePx with
      | none => ⟨[], requests, logged, .panicked⟩
      | some out => ⟨[⟨out, i⟩], requests, logged, .returned⟩
    else ⟨[⟨img, i⟩], requests, logged, .returned⟩

/-- The function `addTile`.  The Config is the validated one (its Logger is set):
`MakeTiledGrid` is the only caller.  The send `tilePool <- i` on a channel without capacity
never completes, because the only receive is the deferred one of a worker that has already
sent; with a capacity of at least 1 the slots are handed on as the results are received. -/
def addTile (W : World) (c : Config) (url : String) (i : Int) : TileRun :=
  if W.poolSize ≤ 0 then ⟨[], [], [], .blocked⟩
  else if url ≠ "" then
    match (loadImg W url).result with
    | .error err =>
      sendTile W c i true (loadImg W url).requests [(url, err)]
        (imagingNew c.ImgSizePx c.ImgSizePx transparent)
    | .ok img => sendTile W c i true (loadImg W url).requests [] (some img)
  else
    sendTile W c i false [] [] (imagingNew c.ImgSizePx c.ImgSizePx transparent)

/-! ## `MakeTiledGrid` -/

/-- What the goroutine of `MakeTiledGrid` does besides computing. -/
inductive Event where
  | logSize (sidePx gridTiles : Int)
  | query (apiKey user period : String) (limit : Int)
  | logShort
  | spawn (i : Int) (url : String)
  deriving DecidableEq, Repr

/-- The returned pair of `MakeTiledGrid`, or a panic, or a receive that blocks for ever. -/
inductive Outcome where
  | error (err : String)
  | canvas (grid : Image)
  | panic
  | blocked

/-- Body of the first loop of `MakeTiledGrid` up to the `go` statement: the URL for cell `i`;
`none` when `chooseImg` panics. -/
def urlFor (albums : List Album) (i : Nat) : Option String :=
  match albums.get? i with
  | some album => chooseImg album.Images
  | none => some ""

/-- The first loop of `MakeTiledGrid` over the given indices: the workers started, as pairs of
index and URL, and whether the loop ran to its end (`false`: a panic stopped it). -/
def spawnLoop (albums : List Album) : List Nat → List (Int × String) × Bool
  | [] => ([], true)
  | i :: rest =>
    match urlFor albums i with
    | none => ([], false)
    | some url => ((Int.ofNat i, url) :: (spawnLoop albums rest).1, (spawnLoop albums rest).2)

/-- The column `int(math.Mod(float64(tile.i), float64(c.GridSize)))`; the conversion back to
`int` is exact because the float is an integer in range. -/
def tileCol (c : Config) (i : Int) : Int :=
  mathMod (float64OfInt i) (float64OfInt c.GridSize)

/-- The row `tile.i / c.GridSize` (Go division truncates). -/
def tileRow (c : Config) (i : Int) : Int := Int.tdiv i c.GridSize

/-- The point `image.Pt(col*c.ImgSizePx, row*c.ImgSizePx)`. -/
def tilePos (c : Config) (i : Int) : Int × Int :=
  (wrap64 (tileCol c i * c.ImgSizePx), wrap64 (tileRow c i * c.ImgSizePx))

/-- Body of the second loop of `MakeTiledGrid` for one received tile (`c.GridSize` is not zero
after `validate`). -/
def pasteTile (c : Config) (grid : Image) (tile : orderedImage) : Image :=
  imagingPaste grid tile.img (tilePos c tile.i).1 (tilePos c tile.i).2

/-- The variable `gridTiles`. -/
def gridTiles (c : Config) : Int := wrap64 (c.GridSize * c.GridSize)

/-- The variable `sidePx`. -/
def sidePx (c : Config) : Int := wrap64 (c.ImgSizePx * c.GridSize)

/-- The canvas `imaging.New(sidePx, sidePx, color.NRGBA{0, 0, 0, 0})`; `none` is a panic. -/
def blankGrid (c : Config) : Option Image := imagingNew (sidePx c) (sidePx c) transparent

/-- The canvas and the second loop of `MakeTiledGrid` over the tiles in the order they are
received; `none` when creating the canvas panics. -/
def assemble (c : Config) (received : List orderedImage) : Option Image :=
  (blankGrid c).map fun grid => received.foldl (pasteTile c) grid

/-- The tiles received from the channel `tiles` when the results of the started workers arrive
in the order `arrival` (a list of worker indices). -/
def receive (W : World) (c : Config) (workers : List (Int × String)) (arrival : List Int) :
    List orderedImage :=
  arrival.flatMap fun i =>
    match workers.lookup i with
    | some url => (addTile W c url i).sent
    | none => []

/-- What a call of `MakeTiledGrid` does: the Config it leaves behind the pointer, what it
returns, what it did, and the workers it started. -/
structure GridRun where
  config : Config
  outcome : Outcome
  events : List Event
  workers : List (Int × String)

/-- The function `MakeTiledGrid`.  The list `arrival` is the order in which the scheduler
delivers the results of the workers; the executions of the program are the runs in which
`arrival` is a permutation of the started indices.  A panic of the first loop, of
`imaging.New` or of a worker ends the process; a worker that never sends leaves the second
loop blocked for ever. -/
def MakeTiledGrid (W : World) (c : Config) (lastfmID : String) (arrival : List Int) : GridRun :=
  match c.validate with
  | (c0, some err) => ⟨c0, .error err, [], []⟩
  | (c, none) =>
    let ev0 := [Event.logSize (sidePx c) (gridTiles c),
      Event.query c.LastfmAPIKey lastfmID c.LastfmPeriod (gridTiles c)]
    match W.getTopAlbums c.LastfmAPIKey lastfmID c.LastfmPeriod (gridTiles c) with
    | .error err => ⟨c, .error err, ev0, []⟩
    | .ok albums =>
      let ev1 := if (albums.length : Int) < gridTiles c then ev0 ++ [Event.logShort] else ev0
      let sp := spawnLoop albums (List.range (gridTiles c).toNat)
      let ev2 := ev1 ++ sp.1.map fun w => Event.spawn w.1 w.2
      if sp.2 then
        match assemble c (receive W c sp.1 arrival) with
        | none => ⟨c, .panic, ev2, sp.1⟩
        | some grid =>
          if sp.1.any fun w => (addTile W c w.2 w.1).status = .panicked then
            ⟨c, .panic, ev2, sp.1⟩
          else if sp.1.any fun w => (addTile W c w.2 w.1).status = .blocked then
            ⟨c, .blocked, ev2, sp.1⟩
          else ⟨c, .canvas grid, ev2, sp.1⟩
      else ⟨c, .panic, ev2, sp.1⟩

/-- The indices `0 .. GridSize*GridSize - 1` of the cells of the grid. -/
def cellIndices (c : Config) : List Int :=
  (List.range (c.GridSize * c.GridSize).toNat).map Int.ofNat

/-! ## The limiter `tilePool` -/

/-- FMTILE_POOL_SIZE ... Set an environment variable with this name to an integer to indicate
max parallelism for tiling operations.  Default is 5. -/
def FMTILE_POOL_SIZE : String := "FMTILE_POOL_SIZE"

/-- The size of the header of a channel in the runtime (`hchanSize`), in bytes. -/
def hchanSize : Int := 96

/-- The package function `init`: the capacity of the channel `tilePool` that it makes.  The
arguments are `os.Getenv` and `strconv.Atoi` (`none`: Atoi returned an error); the result is
`none` when `make(chan int, i)` panics: the size is negative, or its 8 bytes per element do
not fit under `maxAlloc` beside the header. -/
def init (getenv : String → String) (atoi : String → Option Int) : Option Int :=
  match atoi (getenv FMTILE_POOL_SIZE) with
  | none => some 5
  | some i => if i < 0 ∨ 8 * i > maxAlloc - hchanSize then none else some i

/-- The three ways through the body of `addTile`. -/
inductive TilePath where
  | placeholder
  | fetchFailed
  | fetched
  deriving DecidableEq, Repr

/-- Where an `addTile` goroutine stands: before `tilePool <- i`; in the body; after
`tiles <- orderedImage` and before the deferred `<-tilePool`; returned. -/
inductive Phase where
  | waiting
  | working
  | emitted (path : TilePath)
  | done
  deriving DecidableEq, Repr

/-- The channel `tilePool` (number of buffered values) and all `addTile` goroutines started
so far in the process, whichever call of `MakeTiledGrid` started them. -/
structure PoolState where
  tilePool : Nat
  workers : List Phase
  deriving DecidableEq, Repr

/-- A scheduling step. -/
inductive Action where
  | spawn
  | acquire (k : Nat)
  | emit (k : Nat) (path : TilePath)
  | release (k : Nat)
  | handoff (k j : Nat)
  deriving DecidableEq, Repr

/-- Whether a goroutine holds a slot: it has completed the send and not the deferred receive. -/
def Phase.holds : Phase → Bool
  | .working => true
  | .emitted _ => true
  | _ => false

/-- Whether a goroutine is about to run its deferred `<-tilePool`. -/
def Phase.isEmitted : Phase → Bool
  | .emitted _ => true
  | _ => false

/-- Number of goroutines holding a slot. -/
def holders (s : PoolState) : Nat := s.workers.countP Phase.holds

/-- One step of the process on a channel of capacity `cap`; `none` when the step is not
enabled.  A send on a channel completes when the buffer has room (`acquire`) or when a receiver
is blocked on the empty channel (`handoff`); a receive completes when the buffer is not empty
(`release`). -/
def step (cap : Nat) (s : PoolState) : Action → Option PoolState
  | .spawn => some ⟨s.tilePool, s.workers ++ [Phase.waiting]⟩
  | .acquire k =>
    if s.workers.get? k = some Phase.waiting ∧ s.tilePool < cap then
      some ⟨s.tilePool + 1, s.workers.set k Phase.working⟩
    else none
  | .emit k path =>
    if s.workers.get? k = some Phase.working then
      some ⟨s.tilePool, s.workers.set k (Phase.emitted path)⟩
    else none
  | .release k =>
    if (s.workers.get? k).any Phase.isEmitted ∧ 0 < s.tilePool then
      some ⟨s.tilePool - 1, s.workers.set k Phase.done⟩
    else none
  | .handoff k j =>
    if s.workers.get? k = some Phase.waiting ∧
        (s.workers.get? j).any Phase.isEmitted ∧ s.tilePool = 0 then
      some ⟨s.tilePool, (s.workers.set k Phase.working).set j Phase.done⟩
    else none

/-- The state when the package is initialised: an empty channel and no goroutine. -/
def PoolState.initial : PoolState := ⟨0, []⟩

/-- The state reached from `s` by a schedule, if every step of it is enabled. -/
def run (cap : Nat) (s : PoolState) : List Action → Option PoolState
  | [] => some s
  | a :: rest =>
    match step cap s a with
    | some s1 => run cap s1 rest
    | none => none

/-! ## Concrete collaborators used to evaluate the definitions -/

/-- A one-pixel raster of the given colour. -/
def onePixel (colour : NRGBA) : Image :=
  ⟨1, 1, fun x y => if x = 0 ∧ y = 0 then colour else ⟨0, 0, 0, 0⟩⟩

/-- A resampling filter that copies the nearest source pixel. -/
def nearestResample (img : Image) (side : Int) (x y : Int) : NRGBA :=
  img.px (x * img.w / side) (y * img.h / side)

/-- A world whose provider lookup fails and whose network is down. -/
def offlineWorld : World :=
  { getTopAlbums := fun _ _ _ _ => .error "lastfm: service offline"
    httpGet := fun _ => .error "dial tcp: connection refused"
    decode := fun _ => .error "image: unknown format"
    resample := nearestResample
    poolSize := 5 }

/-- A world whose provider returns one album without any image candidate. -/
def bareAlbumWorld : World :=
  { getTopAlbums := fun _ _ _ _ => .ok [⟨[]⟩]
    httpGet := fun _ => .error "dial tcp: connection refused"
    decode := fun _ => .error "image: unknown format"
    resample := nearestResample
    poolSize := 5 }

/-- A world whose server answers every request with status 404 and a body that is a valid
one-pixel image; any other body does not decode. -/
def notFoundWorld : World :=
  { getTopAlbums := fun _ _ _ _ => .ok []
    httpGet := fun _ => .ok ⟨404, [66, 77]⟩
    decode := fun body =>
      if body = [66, 77] then .ok (onePixel ⟨255, 0, 0, 255⟩) else .error "image: unknown format"
    resample := nearestResample
    poolSize := 5 }

/-- A tile result for cell `k`: a square of the given side in a colour that encodes `k`. -/
def solidTile (side : Int) (k : Nat) : orderedImage :=
  ⟨⟨side, side, fun _ _ => ⟨k, 0, 0, 255⟩⟩, Int.ofNat k⟩

/-- A 2 by 2 grid of one-pixel cells. -/
def smallGrid : Config := ⟨"key", "7day", 1, 2, some Logger.devNull⟩

/-- The four tile results of `smallGrid`, in index order. -/
def smallTiles : List orderedImage := (List.range 4).map (solidTile 1)

/-- A grid of 256 by 256 cells of side 65536: every tile can be allocated (2^34 bytes), the
canvas of side 2^24 cannot (2^50 bytes). -/
def bigGrid : Config := ⟨"key", "7day", 65536, 256, some Logger.devNull⟩

/-- A world whose provider returns no album and whose limiter `tilePool` has capacity 0. -/
def noSlotWorld : World :=
  { getTopAlbums := fun _ _ _ _ => .ok []
    httpGet := fun _ => .error "dial tcp: connection refused"
    decode := fun _ => .error "image: unknown format"
    resample := nearestResample
    poolSize := 0 }

/-- A world whose server answers every request with a body that decodes to the empty image
(an image file of width and height 0). -/
def emptyImageWorld : World :=
  { getTopAlbums := fun _ _ _ _ => .ok []
    httpGet := fun _ => .ok ⟨200, [66, 77]⟩
    decode := fun _ => .ok emptyImage
    resample := nearestResample
    poolSize := 5 }

/-- A world whose provider returns two albums and whose network is down. -/
def twoAlbumWorld : World :=
  { getTopAlbums := fun _ _ _ _ =>
      .ok [⟨[⟨"large", "http://a/large.png"⟩, ⟨"extralarge", "http://a/xl.png"⟩]⟩,
        ⟨[⟨"medium", "http://b/medium.png"⟩]⟩]
    httpGet := fun _ => .error "dial tcp: connection refused"
    decode := fun _ => .error "image: unknown format"
    resample := nearestResample
    poolSize := 5 }

/-- A schedule of three workers on a pool of capacity 2: two are admitted, the first one
finishes and releases its slot, then the third is admitted. -/
def sampleSchedule : List Action :=
  [.spawn, .spawn, .spawn, .acquire 0, .acquire 1, .emit 0 .fetched, .release 0, .acquire 2]

/-! ## Theorems -/

/-! ### `chooseImg` -/

/-- The loop falls through when no candidate carries the label. -/
theorem firstOfSize_none (label : String) (l : List AlbumImage)
    (h : ∀ y ∈ l, y.Size ≠ label) : firstOfSize label l = none := by
  induction l with
  | nil => rfl
  | cons a t ih =>
    have ha : a.Size ≠ label := h a (List.mem_cons_self a t)
    have ht : ∀ y ∈ t, y.Size ≠ label := fun y hy => h y (List.mem_cons_of_mem a hy)
    simp [firstOfSize, ha, ih ht]

/-- The loop returns the URL of the first candidate carrying the label. -/
theorem firstOfSize_first (label : String) (pre : List AlbumImage) (x : AlbumImage)
    (post : List AlbumImage) (hx : x.Size = label) (h : ∀ y ∈ pre, y.Size ≠ label) :
    firstOfSize label (pre ++ x :: post) = some x.Url := by
  induction pre with
  | nil => simp [firstOfSize, hx]
  | cons a t ih =>
    have ha : a.Size ≠ label := h a (List.mem_cons_self a t)
    have ht : ∀ y ∈ t, y.Size ≠ label := fun y hy => h y (List.mem_cons_of_mem a hy)
    simp [firstOfSize, ha, ih ht]

/-- C1: on a non-empty candidate list `chooseImg` returns a URL (it does not panic); that URL
is the Url of the first candidate labelled "extralarge" when there is one, wherever it stands
in the list; otherwise the Url of the first candidate labelled "large" when there is one;
otherwise the Url of the first candidate of the list. -/
theorem chooseImg_preference (imgs : List AlbumImage) (hne : imgs ≠ []) :
    ∃ url, chooseImg imgs = some url ∧
      (∀ pre x post, imgs = pre ++ x :: post → x.Size = "extralarge" →
        (∀ y ∈ pre, y.Size ≠ "extralarge") → url = x.Url) ∧
      ((∀ y ∈ imgs, y.Size ≠ "extralarge") →
        ∀ pre x post, imgs = pre ++ x :: post → x.Size = "large" →
          (∀ y ∈ pre, y.Size ≠ "large") → url = x.Url) ∧
      ((∀ y ∈ imgs, y.Size ≠ "extralarge") → (∀ y ∈ imgs, y.Size ≠ "large") →
        ∀ x rest, imgs = x :: rest → url = x.Url) := by
  cases imgs with
  | nil => exact absurd rfl hne
  | cons a t =>
    have hsome : ∃ url, chooseImg (a :: t) = some url := by
      unfold chooseImg
      cases firstOfSize "extralarge" (a :: t) with
      | some u => exact ⟨u, rfl⟩
      | none =>
        cases firstOfSize "large" (a :: t) with
        | some u => exact ⟨u, rfl⟩
        | none => exact ⟨a.Url, rfl⟩
    obtain ⟨url, hurl⟩ := hsome
    refine ⟨url, hurl, ?_, ?_, ?_⟩
    · intro pre x post hdec hx hpre
      have h1 := firstOfSize_first "extralarge" pre x post hx hpre
      rw [← hdec] at h1
      simp [chooseImg, h1] at hurl
      exact hurl.symm
    · intro hno pre x post hdec hx hpre
      have h0 := firstOfSize_none "extralarge" (a :: t) hno
      have h1 := firstOfSize_first "large" pre x post hx hpre
      rw [← hdec] at h1
      simp [chooseImg, h0, h1] at hurl
      exact hurl.symm
    · intro hno hnol x rest hdec
      have h0 := firstOfSize_none "extralarge" (a :: t) hno
      have h1 := firstOfSize_none "large" (a :: t) hnol
      simp [chooseImg, h0, h1] at hurl
      cases hdec
      exact hurl.symm

/-- The example of the specification: `[large, extralarge, medium]` selects the extralarge Url. -/
theorem chooseImg_preference_witness :
    chooseImg [⟨"large", "Ul"⟩, ⟨"extralarge", "Ux"⟩, ⟨"medium", "Um"⟩] = some "Ux" := by
  obtain ⟨url, hurl, hxl, -, -⟩ :=
    chooseImg_preference [⟨"large", "Ul"⟩, ⟨"extralarge", "Ux"⟩, ⟨"medium", "Um"⟩] (by decide)
  rw [hurl, hxl [⟨"large", "Ul"⟩] ⟨"extralarge", "Ux"⟩ [⟨"medium", "Um"⟩] rfl rfl (by decide)]

/-! ### `Config.validate` -/

/-- C2: with a non-empty API key `validate` returns no error and leaves GridSize as 3 when it
was not positive and unchanged otherwise, ImgSizePx as 174 when it was not positive and
unchanged otherwise, the period as "7day" when it was empty and unchanged otherwise, and the
API key unchanged; afterwards both sizes are at least 1. -/
theorem validate_defaults (c : Config) (hkey : c.LastfmAPIKey ≠ "") :
    c.validate.2 = none ∧
    c.validate.1.GridSize = (if c.GridSize ≤ 0 then 3 else c.GridSize) ∧
    c.validate.1.ImgSizePx = (if c.ImgSizePx ≤ 0 then 174 else c.ImgSizePx) ∧
    c.validate.1.LastfmPeriod = (if c.LastfmPeriod = "" then "7day" else c.LastfmPeriod) ∧
    c.validate.1.LastfmAPIKey = c.LastfmAPIKey ∧
    1 ≤ c.validate.1.GridSize ∧ 1 ≤ c.validate.1.ImgSizePx := by
  unfold Config.validate
  simp only [hkey, if_false]
  refine ⟨trivial, ?_, ?_, ?_, ?_, ?_, ?_⟩ <;> (split_ifs <;> simp_all <;> omega)

/-- A Config with an empty period and two invalid sizes is accepted and gets the defaults. -/
theorem validate_defaults_witness :
    (Config.validate ⟨"key", "", 0, -4, none⟩).2 = none ∧
    (Config.validate ⟨"key", "", 0, -4, none⟩).1.GridSize = 3 ∧
    (Config.validate ⟨"key", "", 0, -4, none⟩).1.ImgSizePx = 174 ∧
    (Config.validate ⟨"key", "", 0, -4, none⟩).1.LastfmPeriod = "7day" := by
  have h := validate_defaults ⟨"key", "", 0, -4, none⟩ (by decide)
  exact ⟨h.1, by simpa using h.2.1, by simpa using h.2.2.1, by simpa using h.2.2.2.1⟩

/-! ### `loadImg` -/

/-- C10, as the code has it: `loadImg` fails, with a text made of the URL and the cause, when
the transport fails and when the body does not decode; it returns the decoded raster when the
transport succeeds and the body decodes, whatever the status of the response; a returned
raster always comes from such a response; and `http.Get` is called exactly once. -/
theorem loadImg_outcomes (W : World) (url : String) :
    (∀ err, W.httpGet url = .error err →
      (loadImg W url).result =
        .error ("Couldn't load image: " ++ url ++ " with error: " ++ err)) ∧
    (∀ resp err, W.httpGet url = .ok resp → W.decode resp.body = .error err →
      (loadImg W url).result =
        .error ("Couldn't load image: " ++ url ++ " with error: " ++ err)) ∧
    (∀ resp img, W.httpGet url = .ok resp → W.decode resp.body = .ok img →
      (loadImg W url).result = .ok img) ∧
    (∀ img, (loadImg W url).result = .ok img →
      ∃ resp, W.httpGet url = .ok resp ∧ W.decode resp.body = .ok img) ∧
    (loadImg W url).requests = [url] := by
  refine ⟨?_, ?_, ?_, ?_, ?_⟩
  · intro err h
    simp [loadImg, h]
  · intro resp err h hd
    simp [loadImg, h, hd]
  · intro resp img h hd
    simp [loadImg, h, hd]
  · intro img h
    unfold loadImg at h
    cases hg : W.httpGet url with
    | error e => simp [hg] at h
    | ok resp =>
      cases hd : W.decode resp.body with
      | error e => simp [hg, hd] at h
      | ok im =>
        simp [hg, hd] at h
        exact ⟨resp, rfl, by rw [hd, h]⟩
  · unfold loadImg
    cases W.httpGet url with
    | error e => rfl
    | ok resp =>
      cases hd : W.decode resp.body with
      | error e => simp [hd]
      | ok im => simp [hd]

/-- With the network down the error names the URL and the cause, after a single request. -/
theorem loadImg_outcomes_witness :
    (loadImg offlineWorld "http://img/1.png").result =
      .error ("Couldn't load image: http://img/1.png with error: dial tcp: connection refused") ∧
    (loadImg offlineWorld "http://img/1.png").requests = ["http://img/1.png"] :=
  ⟨(loadImg_outcomes offlineWorld "http://img/1.png").1 "dial tcp: connection refused" rfl,
    (loadImg_outcomes offlineWorld "http://img/1.png").2.2.2.2⟩

/-- C10 as stated fails: a response with status 404 whose body decodes is not reported as a
failure; `loadImg` returns the decoded raster. -/
theorem loadImg_status_not_checked :
    notFoundWorld.httpGet "http://img/gone.png" = .ok ⟨404, [66, 77]⟩ ∧
    (loadImg notFoundWorld "http://img/gone.png").result = .ok (onePixel ⟨255, 0, 0, 255⟩) :=
  ⟨rfl, rfl⟩

/-! ### `MakeTiledGrid`: the fatal conditions -/

/-- With a non-empty API key `validate` succeeds and leaves both sizes positive. -/
theorem validate_ok (c : Config) (hkey : c.LastfmAPIKey ≠ "") :
    c.validate = (c.validate.1, none) ∧ 1 ≤ c.validate.1.GridSize ∧
    1 ≤ c.validate.1.ImgSizePx := by
  unfold Config.validate
  simp only [hkey, if_false]
  refine ⟨trivial, ?_, ?_⟩ <;> (split_ifs <;> simp_all <;> omega)


/-- C3: with an empty API key `MakeTiledGrid` returns the error of `validate` and no canvas,
leaves the Config as it was, queries nothing and starts no worker; when the provider lookup
fails it returns that error and no canvas, and starts no worker. -/
theorem MakeTiledGrid_fatal (W : World) (c : Config) (lastfmID : String) (arrival : List Int) :
    (c.LastfmAPIKey = "" →
      (MakeTiledGrid W c lastfmID arrival).outcome =
        .error "lastfmApiKey is required in Config" ∧
      (MakeTiledGrid W c lastfmID arrival).config = c ∧
      (MakeTiledGrid W c lastfmID arrival).events = [] ∧
      (MakeTiledGrid W c lastfmID arrival).workers = []) ∧
    (∀ err, c.LastfmAPIKey ≠ "" →
      W.getTopAlbums c.validate.1.LastfmAPIKey lastfmID c.validate.1.LastfmPeriod
        (gridTiles c.validate.1) = .error err →
      (MakeTiledGrid W c lastfmID arrival).outcome = .error err ∧
      (MakeTiledGrid W c lastfmID arrival).workers = [] ∧
      ∀ i url, Event.spawn i url ∉ (MakeTiledGrid W c lastfmID arrival).events) := by
  constructor
  · intro hkey
    have hv : c.validate = (c, some "lastfmApiKey is required in Config") := by
      simp [Config.validate, hkey]
    simp [MakeTiledGrid, hv]
  · intro err hkey hq
    have hv : c.validate = (c.validate.1, none) := (validate_ok c hkey).1
    unfold MakeTiledGrid
    rw [hv]
    simp only
    rw [hq]
    simp

/-- An empty key leaves the Config untouched; a failing lookup starts no worker. -/
theorem MakeTiledGrid_fatal_witness :
    (MakeTiledGrid offlineWorld ⟨"", "", 0, 0, none⟩ "rj" []).config = ⟨"", "", 0, 0, none⟩ ∧
    (MakeTiledGrid offlineWorld ⟨"key", "", 0, 0, none⟩ "rj" []).workers = [] :=
  ⟨((MakeTiledGrid_fatal offlineWorld ⟨"", "", 0, 0, none⟩ "rj" []).1 rfl).2.1,
    ((MakeTiledGrid_fatal offlineWorld ⟨"key", "", 0, 0, none⟩ "rj" []).2
      "lastfm: service offline" (by decide) rfl).2.1⟩

/-! ### `chooseImg` on an album without candidates -/

/-- C9 fails on the code: on an empty candidate list `chooseImg` panics (index out of range),
and a build whose provider returned an album without candidates panics with it, after the
lookup succeeded, instead of yielding a URL. -/
theorem chooseImg_empty_panics :
    chooseImg [] = none ∧
    bareAlbumWorld.getTopAlbums "key" "rj" "7day" 1 = .ok [⟨[]⟩] ∧
    (MakeTiledGrid bareAlbumWorld ⟨"key", "7day", 174, 1, none⟩ "rj" [0]).outcome = .panic ∧
    (MakeTiledGrid bareAlbumWorld ⟨"key", "7day", 174, 1, none⟩ "rj" [0]).workers = [] :=
  ⟨rfl, rfl, rfl, rfl⟩


/-! ### Machine arithmetic inside the representable range -/

/-- No wrap-around inside the range of `int`. -/
theorem wrap64_of_range (x : Int) (hlo : -2 ^ 63 ≤ x) (hhi : x < 2 ^ 63) : wrap64 x = x := by
  unfold wrap64
  omega

/-- The conversion to `float64` is exact below `2^53`. -/
theorem float64OfInt_exact (i : Int) (h0 : 0 ≤ i) (h1 : i < 2 ^ 53) : float64OfInt i = i := by
  unfold float64OfInt float64OfNat
  have h2 : i.toNat < 2 ^ 53 := by omega
  rw [if_pos h0, if_pos h2]
  exact Int.toNat_of_nonneg h0

/-- Row and column of a cell are below the grid side. -/
theorem cell_coords (s i : Int) (hs : 1 ≤ s) (h0 : 0 ≤ i) (h1 : i < s * s) :
    0 ≤ i / s ∧ i / s < s ∧ 0 ≤ i % s ∧ i % s < s := by
  have hs0 : 0 < s := by omega
  refine ⟨Int.ediv_nonneg h0 (by omega), Int.ediv_lt_of_lt_mul hs0 h1,
    Int.emod_nonneg i (by omega), Int.emod_lt_of_pos i hs0⟩

/-- A cell coordinate times the cell size stays inside the canvas. -/
theorem cell_offset (s p k : Int) (hp : 1 ≤ p) (h0 : 0 ≤ k) (h1 : k < s) :
    0 ≤ k * p ∧ k * p + p ≤ s * p := by
  constructor
  · positivity
  · nlinarith

/-- Inside the representable range the machine computations of `MakeTiledGrid` agree with
integer arithmetic. -/
theorem grid_arith (c : Config) (hs : 1 ≤ c.GridSize) (hp : 1 ≤ c.ImgSizePx)
    (hcells : c.GridSize * c.GridSize ≤ 2 ^ 53) (hside : c.GridSize * c.ImgSizePx < 2 ^ 63) :
    gridTiles c = c.GridSize * c.GridSize ∧ sidePx c = c.GridSize * c.ImgSizePx ∧
    ∀ i, 0 ≤ i → i < c.GridSize * c.GridSize →
      tileRow c i = i / c.GridSize ∧ tileCol c i = i % c.GridSize ∧
      tilePos c i = (i % c.GridSize * c.ImgSizePx, i / c.GridSize * c.ImgSizePx) := by
  have hs53 : c.GridSize < 2 ^ 53 := by nlinarith
  refine ⟨?_, ?_, ?_⟩
  · unfold gridTiles
    apply wrap64_of_range <;> nlinarith
  · unfold sidePx
    rw [mul_comm]
    apply wrap64_of_range <;> nlinarith
  · intro i h0 h1
    obtain ⟨hr0, hr1, hc0, hc1⟩ := cell_coords c.GridSize i hs h0 h1
    have hrow : tileRow c i = i / c.GridSize := by
      unfold tileRow
      exact Int.tdiv_eq_ediv h0 (by omega)
    have hcol : tileCol c i = i % c.GridSize := by
      unfold tileCol mathMod
      rw [float64OfInt_exact i h0 (by omega), float64OfInt_exact c.GridSize (by omega) hs53]
      exact Int.tmod_eq_emod h0 (by omega)
    refine ⟨hrow, hcol, ?_⟩
    unfold tilePos
    rw [hrow, hcol]
    obtain ⟨hx0, hx1⟩ := cell_offset c.GridSize c.ImgSizePx _ hp hc0 hc1
    obtain ⟨hy0, hy1⟩ := cell_offset c.GridSize c.ImgSizePx _ hp hr0 hr1
    rw [wrap64_of_range _ (by omega) (by omega), wrap64_of_range _ (by omega) (by omega)]

/-! ### Canvas side and tile placement -/

/-- A grid whose canvas can be allocated is inside the representable range, and so are its
cells. -/
theorem fit_range (s p : Int) (hs : 1 ≤ s) (hp : 1 ≤ p)
    (hfit : 4 * (s * p) * (s * p) ≤ maxAlloc) :
    s * s ≤ 2 ^ 53 ∧ s * p < 2 ^ 63 ∧ 4 * p * p ≤ maxAlloc := by
  unfold maxAlloc at *
  have h1 : s ≤ s * p := by nlinarith
  have h2 : p ≤ s * p := by nlinarith
  have h3 : 0 < s * p := by positivity
  refine ⟨?_, ?_, ?_⟩
  · nlinarith
  · by_contra hc
    have : (2 : Int) ^ 63 ≤ s * p := by omega
    nlinarith
  · nlinarith

/-- When the canvas can be allocated it is created transparent with side
GridSize·ImgSizePx, and the tile of a cell is pasted at `(col·ImgSizePx, row·ImgSizePx)`, a
point whose square of side ImgSizePx lies inside the canvas. -/
theorem grid_layout (c : Config) (hs : 1 ≤ c.GridSize) (hp : 1 ≤ c.ImgSizePx)
    (hfit : 4 * (c.GridSize * c.ImgSizePx) * (c.GridSize * c.ImgSizePx) ≤ maxAlloc) :
    (∃ g, blankGrid c = some g ∧ g.w = c.GridSize * c.ImgSizePx ∧
      g.h = c.GridSize * c.ImgSizePx) ∧
    ∀ i, 0 ≤ i → i < c.GridSize * c.GridSize →
      (∀ grid img, pasteTile c grid ⟨img, i⟩ =
        imagingPaste grid img (i % c.GridSize * c.ImgSizePx) (i / c.GridSize * c.ImgSizePx)) ∧
      0 ≤ i % c.GridSize * c.ImgSizePx ∧
      i % c.GridSize * c.ImgSizePx + c.ImgSizePx ≤ c.GridSize * c.ImgSizePx ∧
      0 ≤ i / c.GridSize * c.ImgSizePx ∧
      i / c.GridSize * c.ImgSizePx + c.ImgSizePx ≤ c.GridSize * c.ImgSizePx := by
  obtain ⟨hcells, hside, -⟩ := fit_range c.GridSize c.ImgSizePx hs hp hfit
  obtain ⟨-, hsp, hpos⟩ := grid_arith c hs hp hcells hside
  have hpos0 : 0 < c.GridSize * c.ImgSizePx := by positivity
  have hnot : ¬ (c.GridSize * c.ImgSizePx ≤ 0) := by omega
  refine ⟨?_, ?_⟩
  · unfold blankGrid imagingNew
    rw [hsp]
    simp only [or_self, if_neg hnot, if_pos hfit]
    exact ⟨_, rfl, rfl, rfl⟩
  · intro i h0 h1
    obtain ⟨-, -, htp⟩ := hpos i h0 h1
    obtain ⟨hr0, hr1, hc0, hc1⟩ := cell_coords c.GridSize i hs h0 h1
    obtain ⟨hx0, hx1⟩ := cell_offset c.GridSize c.ImgSizePx _ hp hc0 hc1
    obtain ⟨hy0, hy1⟩ := cell_offset c.GridSize c.ImgSizePx _ hp hr0 hr1
    refine ⟨?_, hx0, hx1, hy0, hy1⟩
    intro grid img
    simp [pasteTile, htp]

/-! ### Canvas side and tile placement -/

/-- C4, for a grid whose canvas can be allocated (4·(GridSize·ImgSizePx)² bytes, at most
`maxAlloc`): the canvas is created with side GridSize·ImgSizePx, and for every index `i` of a
cell the row is `i div GridSize`, the column computed through `math.Mod` on floats is
`i mod GridSize`, both are below GridSize, the tile is pasted at
`(col·ImgSizePx, row·ImgSizePx)`, and the square of side ImgSizePx at that point lies inside
the canvas. -/
theorem grid_geometry (c : Config) (hs : 1 ≤ c.GridSize) (hp : 1 ≤ c.ImgSizePx)
    (hfit : 4 * (c.GridSize * c.ImgSizePx) * (c.GridSize * c.ImgSizePx) ≤ maxAlloc) :
    sidePx c = c.GridSize * c.ImgSizePx ∧
    (∃ g, blankGrid c = some g ∧ g.w = c.GridSize * c.ImgSizePx ∧
      g.h = c.GridSize * c.ImgSizePx) ∧
    ∀ i, 0 ≤ i → i < c.GridSize * c.GridSize →
      tileRow c i = i / c.GridSize ∧ tileCol c i = i % c.GridSize ∧
      i / c.GridSize < c.GridSize ∧ i % c.GridSize < c.GridSize ∧
      (∀ grid img, pasteTile c grid ⟨img, i⟩ =
        imagingPaste grid img (tileCol c i * c.ImgSizePx) (tileRow c i * c.ImgSizePx)) ∧
      0 ≤ (tilePos c i).1 ∧ (tilePos c i).1 + c.ImgSizePx ≤ c.GridSize * c.ImgSizePx ∧
      0 ≤ (tilePos c i).2 ∧ (tilePos c i).2 + c.ImgSizePx ≤ c.GridSize * c.ImgSizePx := by
  obtain ⟨hcells, hside, -⟩ := fit_range c.GridSize c.ImgSizePx hs hp hfit
  obtain ⟨-, hsp, hpos⟩ := grid_arith c hs hp hcells hside
  obtain ⟨hgrid, hlay⟩ := grid_layout c hs hp hfit
  refine ⟨hsp, hgrid, ?_⟩
  intro i h0 h1
  obtain ⟨hrow, hcol, htp⟩ := hpos i h0 h1
  obtain ⟨-, hr1, -, hc1⟩ := cell_coords c.GridSize i hs h0 h1
  obtain ⟨hpaste, hx0, hx1, hy0, hy1⟩ := hlay i h0 h1
  refine ⟨hrow, hcol, hr1, hc1, ?_, ?_, ?_, ?_, ?_⟩
  · intro grid img
    rw [hrow, hcol]
    exact hpaste grid img
  · rw [htp]; exact hx0
  · rw [htp]; exact hx1
  · rw [htp]; exact hy0
  · rw [htp]; exact hy1

/-- The default grid: side 3·174 = 522, and cell 5 goes to column 2. -/
theorem grid_geometry_witness :
    sidePx ⟨"key", "7day", 174, 3, some Logger.devNull⟩ = 522 ∧
    tileCol ⟨"key", "7day", 174, 3, some Logger.devNull⟩ 5 = 2 := by
  obtain ⟨hside, -, hcell⟩ := grid_geometry ⟨"key", "7day", 174, 3, some Logger.devNull⟩
    (by decide) (by decide) (by decide)
  exact ⟨hside, (hcell 5 (by decide) (by decide)).2.1⟩

/-- C4 as stated fails.  With GridSize 2^32 and ImgSizePx 2^31 the product wraps: `sidePx` is
-2^63 and the canvas is the empty image, not one of side 2^63.  With GridSize 1 and ImgSizePx
2^31 the canvas of side 2^31 cannot be allocated and `imaging.New` panics. -/
theorem grid_geometry_overflow :
    sidePx ⟨"key", "7day", 2 ^ 31, 2 ^ 32, some Logger.devNull⟩ = -2 ^ 63 ∧
    (blankGrid ⟨"key", "7day", 2 ^ 31, 2 ^ 32, some Logger.devNull⟩).map (fun g => g.w) =
      some 0 ∧
    blankGrid ⟨"key", "7day", 2 ^ 31, 1, some Logger.devNull⟩ = none := by
  refine ⟨by decide, by decide, ?_⟩
  simp [blankGrid, imagingNew, sidePx, wrap64, maxAlloc]

/-! ### Pasting tiles in any order -/

/-- Pasting keeps the size of the background. -/
theorem foldl_pasteTile_size (c : Config) (l : List orderedImage) (g : Image) :
    (l.foldl (pasteTile c) g).w = g.w ∧ (l.foldl (pasteTile c) g).h = g.h := by
  induction l generalizing g with
  | nil => exact ⟨rfl, rfl⟩
  | cons a t ih =>
    rw [List.foldl_cons]
    exact ⟨(ih _).1.trans rfl, (ih _).2.trans rfl⟩

/-- Two pastes whose rectangles share no point commute. -/
theorem imagingPaste_comm (g a b : Image) (xa ya xb yb : Int)
    (hdisj : ∀ x y, xa ≤ x → x < xa + a.w → ya ≤ y → y < ya + a.h →
      xb ≤ x → x < xb + b.w → yb ≤ y → y < yb + b.h → False) :
    imagingPaste (imagingPaste g a xa ya) b xb yb =
      imagingPaste (imagingPaste g b xb yb) a xa ya := by
  apply Image.ext
  · rfl
  · rfl
  · funext x y
    simp only [imagingPaste]
    by_cases ha : 0 ≤ x ∧ x < g.w ∧ 0 ≤ y ∧ y < g.h ∧
        xa ≤ x ∧ x < xa + a.w ∧ ya ≤ y ∧ y < ya + a.h
    · by_cases hb : 0 ≤ x ∧ x < g.w ∧ 0 ≤ y ∧ y < g.h ∧
          xb ≤ x ∧ x < xb + b.w ∧ yb ≤ y ∧ y < yb + b.h
      · exact absurd (hdisj x y ha.2.2.2.2.1 ha.2.2.2.2.2.1 ha.2.2.2.2.2.2.1 ha.2.2.2.2.2.2.2
          hb.2.2.2.2.1 hb.2.2.2.2.2.1 hb.2.2.2.2.2.2.1 hb.2.2.2.2.2.2.2) id
      · simp only [if_pos ha, if_neg hb]
    · by_cases hb : 0 ≤ x ∧ x < g.w ∧ 0 ≤ y ∧ y < g.h ∧
          xb ≤ x ∧ x < xb + b.w ∧ yb ≤ y ∧ y < yb + b.h
      · simp only [if_pos hb, if_neg ha]
      · simp only [if_neg hb, if_neg ha]

/-- Two multiples of the cell size that both start a cell containing `x` are equal. -/
theorem cell_unique (p a b x : Int) (ha0 : a * p ≤ x) (ha1 : x < a * p + p)
    (hb0 : b * p ≤ x) (hb1 : x < b * p + p) : a = b := by
  have hp : 0 < p := by omega
  rcases lt_trichotomy a b with h | h | h
  · exfalso
    have : (a + 1) * p ≤ b * p := Int.mul_le_mul_of_nonneg_right (by omega) (by omega)
    nlinarith
  · exact h
  · exfalso
    have : (b + 1) * p ≤ a * p := Int.mul_le_mul_of_nonneg_right (by omega) (by omega)
    nlinarith

/-- The cell indices are the integers from 0 up to GridSize², each once. -/
theorem mem_cellIndices (c : Config) (i : Int) :
    i ∈ cellIndices c ↔ 0 ≤ i ∧ i < c.GridSize * c.GridSize := by
  unfold cellIndices
  simp only [List.mem_map, List.mem_range]
  generalize c.GridSize * c.GridSize = n
  constructor
  · rintro ⟨k, hk, rfl⟩
    have : Int.ofNat k = (k : Int) := rfl
    omega
  · rintro ⟨h0, h1⟩
    refine ⟨i.toNat, ?_, ?_⟩
    · omega
    · exact Int.toNat_of_nonneg h0

/-- No cell index occurs twice. -/
theorem cellIndices_nodup (c : Config) : (cellIndices c).Nodup := by
  unfold cellIndices
  exact (List.nodup_range _).map (fun a b h => Int.ofNat.inj h)

/-- Inside the representable range, the tiles of two different cells are pasted on rectangles
that share no point, so the two pastes commute. -/
theorem pasteTile_comm (c : Config) (hs : 1 ≤ c.GridSize) (hp : 1 ≤ c.ImgSizePx)
    (hfit : 4 * (c.GridSize * c.ImgSizePx) * (c.GridSize * c.ImgSizePx) ≤ maxAlloc)
    (a b : orderedImage) (ha : a.i ∈ cellIndices c) (hb : b.i ∈ cellIndices c)
    (hda : a.img.w ≤ c.ImgSizePx ∧ a.img.h ≤ c.ImgSizePx)
    (hdb : b.img.w ≤ c.ImgSizePx ∧ b.img.h ≤ c.ImgSizePx) (hne : a.i ≠ b.i) (g : Image) :
    pasteTile c (pasteTile c g a) b = pasteTile c (pasteTile c g b) a := by
  obtain ⟨hcells, hside, -⟩ := fit_range c.GridSize c.ImgSizePx hs hp hfit
  obtain ⟨-, -, hpos⟩ := grid_arith c hs hp hcells hside
  rw [mem_cellIndices] at ha hb
  obtain ⟨-, -, hta⟩ := hpos a.i ha.1 ha.2
  obtain ⟨-, -, htb⟩ := hpos b.i hb.1 hb.2
  unfold pasteTile
  rw [hta, htb]
  apply imagingPaste_comm
  intro x y hx0 hx1 hy0 hy1 hx2 hx3 hy2 hy3
  simp only at hx0 hx1 hy0 hy1 hx2 hx3 hy2 hy3
  have hcol := cell_unique c.ImgSizePx _ _ x hx0 (by omega) hx2 (by omega)
  have hrow := cell_unique c.ImgSizePx _ _ y hy0 (by omega) hy2 (by omega)
  apply hne
  rw [← Int.emod_add_ediv a.i c.GridSize, ← Int.emod_add_ediv b.i c.GridSize, hcol, hrow]

/-- Pasting a list of tiles of distinct cells gives the same image in every order. -/
theorem foldl_pasteTile_perm (c : Config) (hs : 1 ≤ c.GridSize) (hp : 1 ≤ c.ImgSizePx)
    (hfit : 4 * (c.GridSize * c.ImgSizePx) * (c.GridSize * c.ImgSizePx) ≤ maxAlloc)
    (l1 l2 : List orderedImage) (hperm : l1.Perm l2)
    (hnodup : (l1.map fun t => t.i).Nodup) (hrange : ∀ t ∈ l1, t.i ∈ cellIndices c)
    (hdim : ∀ t ∈ l1, t.img.w ≤ c.ImgSizePx ∧ t.img.h ≤ c.ImgSizePx) (g : Image) :
    l1.foldl (pasteTile c) g = l2.foldl (pasteTile c) g := by
  apply List.Perm.foldl_eq' hperm
  intro x hx y hy z
  by_cases hxy : x.i = y.i
  · have : x = y := List.inj_on_of_nodup_map hnodup hx hy hxy
    rw [this]
  · exact pasteTile_comm c hs hp hfit x y (hrange x hx) (hrange y hy) (hdim x hx)
      (hdim y hy) hxy z

/-- After pasting tiles of distinct cells in any order on a canvas of the grid's side, the
square of the cell of a tile of side ImgSizePx holds the raster of that tile. -/
theorem foldl_pasteTile_cell (c : Config) (hs : 1 ≤ c.GridSize) (hp : 1 ≤ c.ImgSizePx)
    (hfit : 4 * (c.GridSize * c.ImgSizePx) * (c.GridSize * c.ImgSizePx) ≤ maxAlloc)
    (results : List orderedImage) (g : Image)
    (hgw : g.w = c.GridSize * c.ImgSizePx) (hgh : g.h = c.GridSize * c.ImgSizePx)
    (hnodup : (results.map fun t => t.i).Nodup) (hrange : ∀ t ∈ results, t.i ∈ cellIndices c)
    (hdim : ∀ t ∈ results, t.img.w ≤ c.ImgSizePx ∧ t.img.h ≤ c.ImgSizePx)
    (t : orderedImage) (ht : t ∈ results)
    (htd : t.img.w = c.ImgSizePx ∧ t.img.h = c.ImgSizePx) (x y : Int)
    (hx0 : 0 ≤ x) (hx1 : x < c.ImgSizePx) (hy0 : 0 ≤ y) (hy1 : y < c.ImgSizePx) :
    (results.foldl (pasteTile c) g).px (t.i % c.GridSize * c.ImgSizePx + x)
      (t.i / c.GridSize * c.ImgSizePx + y) = t.img.px x y := by
  obtain ⟨-, hgeo⟩ := grid_layout c hs hp hfit
  have hti := (mem_cellIndices c t.i).1 (hrange t ht)
  obtain ⟨hpaste, hgx0, hgx1, hgy0, hgy1⟩ := hgeo t.i hti.1 hti.2
  obtain ⟨l1, l2, rfl⟩ := List.append_of_mem ht
  have hperm : (l1 ++ t :: l2).Perm ((l1 ++ l2) ++ [t]) :=
    List.perm_middle.trans (List.perm_append_singleton t (l1 ++ l2)).symm
  rw [foldl_pasteTile_perm c hs hp hfit _ _ hperm hnodup hrange hdim, List.foldl_append]
  simp only [List.foldl_cons, List.foldl_nil]
  obtain ⟨hfw, hfh⟩ := foldl_pasteTile_size c (l1 ++ l2) g
  have hte : t = ⟨t.img, t.i⟩ := rfl
  rw [hte, hpaste]
  simp only [imagingPaste]
  rw [if_pos]
  · congr 1 <;> ring
  · rw [hfw, hfh, hgw, hgh, htd.1, htd.2]
    refine ⟨?_, ?_, ?_, ?_, ?_, ?_, ?_, ?_⟩ <;> omega

/-! ### The workers started by `MakeTiledGrid` and the tiles it receives -/

/-- On a non-empty candidate list `chooseImg` returns a URL. -/
theorem chooseImg_some (imgs : List AlbumImage) (hne : imgs ≠ []) :
    ∃ url, chooseImg imgs = some url := by
  cases imgs with
  | nil => exact absurd rfl hne
  | cons a t =>
    unfold chooseImg
    cases firstOfSize "extralarge" (a :: t) with
    | some u => exact ⟨u, rfl⟩
    | none =>
      cases firstOfSize "large" (a :: t) with
      | some u => exact ⟨u, rfl⟩
      | none => exact ⟨a.Url, rfl⟩

/-- Where no album lacks candidates the first loop runs to its end and starts, for every
index, one worker with the URL of `urlFor`. -/
theorem spawnLoop_ok (albums : List Album) (l : List Nat)
    (hne : ∀ i ∈ l, ∀ album, albums.get? i = some album → album.Images ≠ []) :
    (spawnLoop albums l).2 = true ∧
    (spawnLoop albums l).1 = l.map fun i => (Int.ofNat i, (urlFor albums i).getD "") := by
  induction l with
  | nil => exact ⟨rfl, rfl⟩
  | cons k t ih =>
    obtain ⟨ih1, ih2⟩ := ih fun i hi => hne i (List.mem_cons_of_mem k hi)
    have hk : ∃ url, urlFor albums k = some url := by
      unfold urlFor
      cases hg : albums.get? k with
      | none => exact ⟨"", rfl⟩
      | some album => exact chooseImg_some album.Images (hne k (List.mem_cons_self k t) album hg)
    obtain ⟨url, hurl⟩ := hk
    simp [spawnLoop, hurl, ih1, ih2]

/-- The URL of a started worker is found under its index. -/
theorem lookup_spawned (u : Nat → String) (l : List Nat) (k : Nat) (hk : k ∈ l) :
    (l.map fun i => (Int.ofNat i, u i)).lookup (Int.ofNat k) = some (u k) := by
  induction l with
  | nil => cases hk
  | cons j t ih =>
    rw [List.map_cons, List.lookup_cons]
    by_cases hjk : k = j
    · subst hjk
      simp
    · have hne : (Int.ofNat k == Int.ofNat j) = false := by
        simp only [beq_eq_false_iff_ne, ne_eq]
        intro h
        exact hjk (Int.ofNat.inj h)
      rw [hne]
      rcases List.mem_cons.1 hk with h | h
      · exact absurd h hjk
      · exact ih h

/-- When the first loop runs to its end, the workers it started are the indices with the URL
of `urlFor`. -/
theorem spawnLoop_workers (albums : List Album) (l : List Nat)
    (h : (spawnLoop albums l).2 = true) :
    (spawnLoop albums l).1 = l.map fun i => (Int.ofNat i, (urlFor albums i).getD "") := by
  induction l with
  | nil => rfl
  | cons k t ih =>
    cases hk : urlFor albums k with
    | none => simp [spawnLoop, hk] at h
    | some url =>
      simp only [spawnLoop, hk] at h ⊢
      rw [ih h, List.map_cons, hk]
      rfl

/-- The placeholder `imaging.New(p, p, color.NRGBA{0, 0, 0, 0})` of a cell size that can be
allocated is a square of side `p`, transparent everywhere. -/
theorem placeholder_spec (p : Int) (hp : 0 < p) (hfit : 4 * p * p ≤ maxAlloc) :
    ∃ img, imagingNew p p transparent = some img ∧ img.w = p ∧ img.h = p ∧
      ∀ x y, img.px x y = transparent := by
  have h : ¬ (p ≤ 0 ∨ p ≤ 0) := by omega
  unfold imagingNew
  rw [if_neg h, if_pos hfit]
  refine ⟨_, rfl, rfl, rfl, ?_⟩
  intro x y
  simp only [transparent]
  split_ifs <;> rfl

/-- Resizing to a cell size that can be allocated: the result is at most that size; it is
empty for an empty source, it has the cell size for a non-empty source, and it is the source
itself when the source has the cell size. -/
theorem imagingResize_spec (resample : Image → Int → Int → Int → NRGBA) (img : Image)
    (p : Int) (hp : 0 < p) (hfit : 4 * p * p ≤ maxAlloc) :
    ∃ out, imagingResize resample img p = some out ∧ out.w ≤ p ∧ out.h ≤ p ∧
      ((img.w ≤ 0 ∨ img.h ≤ 0) → out = emptyImage) ∧
      (0 < img.w → 0 < img.h → out.w = p ∧ out.h = p) ∧
      (img.w = p ∧ img.h = p → out = img) := by
  have hp0 : ¬ p ≤ 0 := by omega
  unfold imagingResize
  rw [if_neg hp0]
  by_cases he : img.w ≤ 0 ∨ img.h ≤ 0
  · rw [if_pos he]
    refine ⟨_, rfl, ?_, ?_, fun _ => rfl, ?_, ?_⟩
    · simp only [emptyImage]; omega
    · simp only [emptyImage]; omega
    · intro h1 h2
      omega
    · intro h
      omega
  · rw [if_neg he]
    by_cases hsame : img.w = p ∧ img.h = p
    · rw [if_pos hsame]
      exact ⟨_, rfl, by omega, by omega, fun h => absurd h he, fun _ _ => hsame, fun _ => rfl⟩
    · rw [if_neg hsame, if_pos hfit]
      exact ⟨_, rfl, le_refl _, le_refl _, fun h => absurd h he, fun _ _ => ⟨rfl, rfl⟩,
        fun h => absurd h hsame⟩

/-- With a limiter of capacity at least 1 and a cell size that can be allocated, a worker
returns after sending one result with its index and a raster of side at most ImgSizePx; with
an empty URL the raster is the transparent square of side ImgSizePx. -/
theorem addTile_sent (W : World) (c : Config) (url : String) (i : Int)
    (hp : 0 < c.ImgSizePx) (hfit : 4 * c.ImgSizePx * c.ImgSizePx ≤ maxAlloc)
    (hpool : 1 ≤ W.poolSize) :
    ∃ img, (addTile W c url i).sent = [⟨img, i⟩] ∧
      (addTile W c url i).status = .returned ∧
      img.w ≤ c.ImgSizePx ∧ img.h ≤ c.ImgSizePx ∧
      (url = "" → img.w = c.ImgSizePx ∧ img.h = c.ImgSizePx ∧
        ∀ x y, img.px x y = transparent) := by
  obtain ⟨ph, hph, hw, hh, htr⟩ := placeholder_spec c.ImgSizePx hp hfit
  have hpool0 : ¬ W.poolSize ≤ 0 := by omega
  unfold addTile
  rw [if_neg hpool0]
  by_cases hu : url = ""
  · have hnu : ¬ url ≠ "" := fun h => h hu
    rw [if_neg hnu, hph]
    exact ⟨ph, rfl, rfl, by omega, by omega, fun _ => ⟨hw, hh, htr⟩⟩
  · rw [if_pos hu]
    cases hl : (loadImg W url).result with
    | error e =>
      obtain ⟨out, hout, how, hoh, -⟩ := imagingResize_spec W.resample ph c.ImgSizePx hp hfit
      refine ⟨out, ?_, ?_, how, hoh, fun h => absurd h hu⟩ <;>
        simp [hph, sendTile, hout]
    | ok src =>
      obtain ⟨out, hout, how, hoh, -⟩ := imagingResize_spec W.resample src c.ImgSizePx hp hfit
      refine ⟨out, ?_, ?_, how, hoh, fun h => absurd h hu⟩ <;>
        simp [sendTile, hout]

/-- The tiles received when the results of the started workers arrive in the order `arrival`,
with a limiter of capacity at least 1 and a cell size that can be allocated: their indices are
`arrival`, their rasters have side at most ImgSizePx, and the result of a worker with an empty
URL is the transparent square of side ImgSizePx. -/
theorem receive_spec (W : World) (c : Config) (hp : 0 < c.ImgSizePx)
    (hfit : 4 * c.ImgSizePx * c.ImgSizePx ≤ maxAlloc) (hpool : 1 ≤ W.poolSize)
    (u : Nat → String) (l : List Nat) (arrival : List Int)
    (harr : ∀ i ∈ arrival, ∃ k ∈ l, i = Int.ofNat k) :
    ((receive W c (l.map fun i => (Int.ofNat i, u i)) arrival).map fun t => t.i) = arrival ∧
    (∀ t ∈ receive W c (l.map fun i => (Int.ofNat i, u i)) arrival,
      t.img.w ≤ c.ImgSizePx ∧ t.img.h ≤ c.ImgSizePx) ∧
    ∀ k ∈ l, Int.ofNat k ∈ arrival → u k = "" →
      ∃ t ∈ receive W c (l.map fun i => (Int.ofNat i, u i)) arrival,
        t.i = Int.ofNat k ∧ (t.img.w = c.ImgSizePx ∧ t.img.h = c.ImgSizePx) ∧
          ∀ x y, t.img.px x y = transparent := by
  induction arrival with
  | nil =>
    refine ⟨rfl, ?_, ?_⟩
    · intro t ht
      cases ht
    · intro k _ hk
      cases hk
  | cons a rest ih =>
    obtain ⟨ih1, ih2, ih3⟩ := ih fun i hi => harr i (List.mem_cons_of_mem a hi)
    obtain ⟨k, hk, rfl⟩ := harr a (List.mem_cons_self a rest)
    obtain ⟨img, hsent, -, hw, hh, htr⟩ := addTile_sent W c (u k) (Int.ofNat k) hp hfit hpool
    have hstep : receive W c (l.map fun i => (Int.ofNat i, u i)) (Int.ofNat k :: rest) =
        ⟨img, Int.ofNat k⟩ :: receive W c (l.map fun i => (Int.ofNat i, u i)) rest := by
      unfold receive
      rw [List.flatMap_cons, lookup_spawned u l k hk]
      simp only [hsent]
      rfl
    rw [hstep]
    refine ⟨?_, ?_, ?_⟩
    · rw [List.map_cons, ih1]
    · intro t ht
      rcases List.mem_cons.1 ht with h | h
      · rw [h]
        exact ⟨hw, hh⟩
      · exact ih2 t h
    · intro j hj hja huj
      rcases List.mem_cons.1 hja with h | h
      · have hjk : j = k := Int.ofNat.inj h
        subst hjk
        obtain ⟨h1, h2, h3⟩ := htr huj
        exact ⟨⟨img, Int.ofNat j⟩, List.mem_cons_self _ _, rfl, ⟨h1, h2⟩, h3⟩
      · obtain ⟨t, ht, hti, htp⟩ := ih3 j hj h huj
        exact ⟨t, List.mem_cons_of_mem _ ht, hti, htp⟩

/-- On a limiter without capacity no worker sends anything. -/
theorem receive_blocked (W : World) (c : Config) (workers : List (Int × String))
    (arrival : List Int) (hpool : W.poolSize ≤ 0) : receive W c workers arrival = [] := by
  unfold receive
  induction arrival with
  | nil => rfl
  | cons a rest ih =>
    rw [List.flatMap_cons, ih]
    cases workers.lookup a with
    | none => rfl
    | some url => simp [addTile, hpool]

/-- When the canvas can be allocated, the second loop builds the same canvas from the results
of the started workers in every arrival order. -/
theorem assemble_receive_order (W : World) (c : Config) (hs : 1 ≤ c.GridSize)
    (hp : 1 ≤ c.ImgSizePx)
    (hfit : 4 * (c.GridSize * c.ImgSizePx) * (c.GridSize * c.ImgSizePx) ≤ maxAlloc)
    (u : Nat → String) (a1 a2 : List Int)
    (h1 : a1.Perm (cellIndices c)) (h2 : a2.Perm (cellIndices c)) :
    assemble c (receive W c ((List.range (c.GridSize * c.GridSize).toNat).map fun i =>
        (Int.ofNat i, u i)) a1) =
      assemble c (receive W c ((List.range (c.GridSize * c.GridSize).toNat).map fun i =>
        (Int.ofNat i, u i)) a2) := by
  by_cases hpool : W.poolSize ≤ 0
  · rw [receive_blocked W c _ a1 hpool, receive_blocked W c _ a2 hpool]
  · obtain ⟨-, -, hpfit⟩ := fit_range c.GridSize c.ImgSizePx hs hp hfit
    obtain ⟨hidx, hdim, -⟩ := receive_spec W c (by omega) hpfit (by omega) u
      (List.range (c.GridSize * c.GridSize).toNat) a1 (by
        intro i hi
        have := h1.subset hi
        unfold cellIndices at this
        obtain ⟨k, hk, rfl⟩ := List.mem_map.1 this
        exact ⟨k, hk, rfl⟩)
    unfold assemble
    congr 1
    funext g
    apply foldl_pasteTile_perm c hs hp hfit
    · unfold receive
      exact List.Perm.flatMap_right _ (h1.trans h2.symm)
    · rw [hidx]
      exact h1.nodup_iff.2 (cellIndices_nodup _)
    · intro t ht
      have : t.i ∈ a1 := by
        rw [← hidx]
        exact List.mem_map_of_mem _ ht
      exact h1.subset this
    · exact hdim

/-- Two runs of the same build that differ only in the order in which the tile results arrive
end in the same way. -/
theorem MakeTiledGrid_order (W : World) (c0 : Config) (lastfmID : String) (a1 a2 : List Int)
    (hs : 1 ≤ c0.validate.1.GridSize) (hp : 1 ≤ c0.validate.1.ImgSizePx)
    (hfit : 4 * (c0.validate.1.GridSize * c0.validate.1.ImgSizePx) *
      (c0.validate.1.GridSize * c0.validate.1.ImgSizePx) ≤ maxAlloc)
    (h1 : a1.Perm (cellIndices c0.validate.1)) (h2 : a2.Perm (cellIndices c0.validate.1)) :
    (MakeTiledGrid W c0 lastfmID a1).outcome = (MakeTiledGrid W c0 lastfmID a2).outcome := by
  by_cases hkey : c0.LastfmAPIKey = ""
  · have hv : c0.validate = (c0, some "lastfmApiKey is required in Config") := by
      simp [Config.validate, hkey]
    simp [MakeTiledGrid, hv]
  · obtain ⟨hv, -, -⟩ := validate_ok c0 hkey
    obtain ⟨hcells, hside, -⟩ :=
      fit_range c0.validate.1.GridSize c0.validate.1.ImgSizePx hs hp hfit
    obtain ⟨hgt, -, -⟩ := grid_arith c0.validate.1 hs hp hcells hside
    unfold MakeTiledGrid
    rw [hv]
    simp only
    cases W.getTopAlbums c0.validate.1.LastfmAPIKey lastfmID c0.validate.1.LastfmPeriod
        (gridTiles c0.validate.1) with
    | error err => rfl
    | ok albums =>
      simp only
      cases hsp : (spawnLoop albums (List.range (gridTiles c0.validate.1).toNat)).2 with
      | false => simp
      | true =>
        simp only [if_true]
        have hwk := spawnLoop_workers albums _ hsp
        rw [hwk, hgt]
        rw [assemble_receive_order W c0.validate.1 hs hp hfit
          (fun i => (urlFor albums i).getD "") a1 a2 h1 h2]

/-! ### Order independence of the assembly -/

/-- C5, for a grid whose canvas can be allocated: for tile results carrying the cell indices
0..GridSize²-1, each once, and rasters of side ImgSizePx, the second loop of `MakeTiledGrid`
builds the same canvas from every permutation of the results; the canvas has side
GridSize·ImgSizePx and the square of each cell holds exactly the raster tagged with that
cell's index.  Consequently two runs of a build in the same world (the same provider answer
and the same fetch results) end in the same way, whatever the two arrival orders. -/
theorem assemble_order_independent (c : Config) (hs : 1 ≤ c.GridSize) (hp : 1 ≤ c.ImgSizePx)
    (hfit : 4 * (c.GridSize * c.ImgSizePx) * (c.GridSize * c.ImgSizePx) ≤ maxAlloc)
    (results arrived : List orderedImage)
    (hidx : (results.map fun t => t.i).Perm (cellIndices c))
    (hdim : ∀ t ∈ results, t.img.w = c.ImgSizePx ∧ t.img.h = c.ImgSizePx)
    (hperm : arrived.Perm results) :
    assemble c arrived = assemble c results ∧
    (∃ g, assemble c arrived = some g ∧
      g.w = c.GridSize * c.ImgSizePx ∧ g.h = c.GridSize * c.ImgSizePx ∧
      ∀ t ∈ results, ∀ x y, 0 ≤ x → x < c.ImgSizePx → 0 ≤ y → y < c.ImgSizePx →
        g.px (t.i % c.GridSize * c.ImgSizePx + x)
          (t.i / c.GridSize * c.ImgSizePx + y) = t.img.px x y) ∧
    ∀ (W : World) (c0 : Config) (lastfmID : String) (a1 a2 : List Int),
      c0.validate.1 = c → a1.Perm (cellIndices c) → a2.Perm (cellIndices c) →
      (MakeTiledGrid W c0 lastfmID a1).outcome = (MakeTiledGrid W c0 lastfmID a2).outcome := by
  have hnodup : (results.map fun t => t.i).Nodup := hidx.nodup_iff.2 (cellIndices_nodup c)
  have hrange : ∀ t ∈ results, t.i ∈ cellIndices c := fun t ht =>
    hidx.subset (List.mem_map_of_mem _ ht)
  have hle : ∀ t ∈ results, t.img.w ≤ c.ImgSizePx ∧ t.img.h ≤ c.ImgSizePx := fun t ht =>
    ⟨le_of_eq (hdim t ht).1, le_of_eq (hdim t ht).2⟩
  obtain ⟨⟨g0, hg0, hw, hh⟩, -⟩ := grid_layout c hs hp hfit
  have hfold : arrived.foldl (pasteTile c) g0 = results.foldl (pasteTile c) g0 :=
    (foldl_pasteTile_perm c hs hp hfit results arrived hperm.symm hnodup hrange hle g0).symm
  have heq : assemble c arrived = assemble c results := by
    unfold assemble
    rw [hg0]
    simp only [Option.map_some', hfold]
  obtain ⟨hfw, hfh⟩ := foldl_pasteTile_size c results g0
  refine ⟨heq, ⟨results.foldl (pasteTile c) g0, ?_, hfw.trans hw, hfh.trans hh, ?_⟩, ?_⟩
  · rw [heq]
    unfold assemble
    rw [hg0]
    rfl
  · intro t ht x y hx0 hx1 hy0 hy1
    exact foldl_pasteTile_cell c hs hp hfit results g0 hw hh hnodup hrange hle t ht
      (hdim t ht) x y hx0 hx1 hy0 hy1
  · intro W c0 lastfmID a1 a2 hc h1 h2
    subst hc
    exact MakeTiledGrid_order W c0 lastfmID a1 a2 hs hp hfit h1 h2

/-- On the 2 by 2 grid, with the results arriving in reverse order, the canvas is the one of
the index order. -/
theorem assemble_order_independent_witness :
    assemble smallGrid smallTiles.reverse = assemble smallGrid smallTiles :=
  (assemble_order_independent smallGrid (by decide) (by decide) (by decide)
    smallTiles smallTiles.reverse (List.Perm.refl _)
    (by
      intro t ht
      obtain ⟨k, -, rfl⟩ := List.mem_map.1 ht
      exact ⟨rfl, rfl⟩)
    (List.reverse_perm _)).1

/-- C5 as stated fails where the canvas cannot be allocated.  With GridSize 256 and
ImgSizePx 65536 every tile of side 65536 can be allocated, but the canvas of side 2^24 needs
2^50 bytes: `imaging.New` panics, and no order of the results yields a canvas. -/
theorem assemble_no_canvas :
    (imagingNew bigGrid.ImgSizePx bigGrid.ImgSizePx transparent).isSome = true ∧
    sidePx bigGrid = 2 ^ 24 ∧
    blankGrid bigGrid = none ∧
    ∀ results, assemble bigGrid results = none := by
  have hb : blankGrid bigGrid = none := by
    simp [blankGrid, imagingNew, sidePx, wrap64, maxAlloc, bigGrid]
  refine ⟨?_, by decide, hb, ?_⟩
  · simp [imagingNew, maxAlloc, bigGrid]
  · intro results
    unfold assemble
    rw [hb]
    rfl

/-- A build that passes validation and the provider lookup, with a canvas that can be
allocated, a limiter of capacity at least 1 and no album lacking candidates: the workers it
starts and the canvas it returns. -/
theorem MakeTiledGrid_run (W : World) (c0 : Config) (lastfmID : String) (arrival : List Int)
    (albums : List Album) (hkey : c0.LastfmAPIKey ≠ "")
    (hfit : 4 * (c0.validate.1.GridSize * c0.validate.1.ImgSizePx) *
      (c0.validate.1.GridSize * c0.validate.1.ImgSizePx) ≤ maxAlloc)
    (hpool : 1 ≤ W.poolSize)
    (hq : W.getTopAlbums c0.validate.1.LastfmAPIKey lastfmID c0.validate.1.LastfmPeriod
      (gridTiles c0.validate.1) = .ok albums)
    (hcand : ∀ (i : Nat) album, Int.ofNat i < c0.validate.1.GridSize * c0.validate.1.GridSize →
      albums.get? i = some album → album.Images ≠ []) :
    (MakeTiledGrid W c0 lastfmID arrival).workers =
      ((List.range (c0.validate.1.GridSize * c0.validate.1.GridSize).toNat).map fun i =>
        (Int.ofNat i, (urlFor albums i).getD "")) ∧
    ∃ grid, (MakeTiledGrid W c0 lastfmID arrival).outcome = .canvas grid ∧
      assemble c0.validate.1 (receive W c0.validate.1
        ((List.range (c0.validate.1.GridSize * c0.validate.1.GridSize).toNat).map fun i =>
          (Int.ofNat i, (urlFor albums i).getD "")) arrival) = some grid := by
  obtain ⟨hv, hs, hp⟩ := validate_ok c0 hkey
  obtain ⟨hcells, hside, hpfit⟩ :=
    fit_range c0.validate.1.GridSize c0.validate.1.ImgSizePx hs hp hfit
  obtain ⟨hgt, -, -⟩ := grid_arith c0.validate.1 hs hp hcells hside
  obtain ⟨⟨g0, hg0, -, -⟩, -⟩ := grid_layout c0.validate.1 hs hp hfit
  have hsp := spawnLoop_ok albums
    (List.range (c0.validate.1.GridSize * c0.validate.1.GridSize).toNat) (by
      intro i hi album hg
      apply hcand i album _ hg
      have hi2 := List.mem_range.1 hi
      have : Int.ofNat i = (i : Int) := rfl
      generalize c0.validate.1.GridSize * c0.validate.1.GridSize = n at *
      omega)
  have hst : ∀ w : Int × String,
      (addTile W c0.validate.1 w.2 w.1).status = TileStatus.returned := by
    intro w
    obtain ⟨img, -, hstat, -⟩ := addTile_sent W c0.validate.1 w.2 w.1 (by omega) hpfit hpool
    exact hstat
  have hasm : ∀ received, assemble c0.validate.1 received =
      some (received.foldl (pasteTile c0.validate.1) g0) := by
    intro received
    unfold assemble
    rw [hg0]
    rfl
  unfold MakeTiledGrid
  rw [hv]
  simp only
  rw [hq]
  simp only [hgt, hsp.1, hsp.2, if_true, hasm, hst]
  simp

/-- C6, for a grid whose canvas can be allocated, a limiter of capacity at least 1 and a
provider answer in which no album among the first GridSize² lacks candidates: the build
starts one worker for each cell index
0..GridSize²-1, in index order and each once; the worker of an index below the number of
albums gets the URL that `chooseImg` selects from the candidates of the album of that rank;
the worker of every later index gets the empty URL; the build returns a canvas (no error) of
side GridSize·ImgSizePx, whatever the number of albums and the arrival order, and in it the
cells of those later indices are fully transparent. -/
theorem MakeTiledGrid_cells (W : World) (c0 : Config) (lastfmID : String) (arrival : List Int)
    (albums : List Album) (hkey : c0.LastfmAPIKey ≠ "")
    (hfit : 4 * (c0.validate.1.GridSize * c0.validate.1.ImgSizePx) *
      (c0.validate.1.GridSize * c0.validate.1.ImgSizePx) ≤ maxAlloc)
    (hpool : 1 ≤ W.poolSize)
    (hq : W.getTopAlbums c0.validate.1.LastfmAPIKey lastfmID c0.validate.1.LastfmPeriod
      (gridTiles c0.validate.1) = .ok albums)
    (hcand : ∀ (i : Nat) album, Int.ofNat i < c0.validate.1.GridSize * c0.validate.1.GridSize →
      albums.get? i = some album → album.Images ≠ [])
    (harr : arrival.Perm (cellIndices c0.validate.1)) :
    ((MakeTiledGrid W c0 lastfmID arrival).workers.map fun w => w.1) =
      cellIndices c0.validate.1 ∧
    (∀ (i : Nat) album, Int.ofNat i < c0.validate.1.GridSize * c0.validate.1.GridSize →
      albums.get? i = some album →
      ∃ url, chooseImg album.Images = some url ∧
        (Int.ofNat i, url) ∈ (MakeTiledGrid W c0 lastfmID arrival).workers) ∧
    (∀ i : Nat, albums.length ≤ i →
      Int.ofNat i < c0.validate.1.GridSize * c0.validate.1.GridSize →
      (Int.ofNat i, "") ∈ (MakeTiledGrid W c0 lastfmID arrival).workers) ∧
    ∃ grid, (MakeTiledGrid W c0 lastfmID arrival).outcome = .canvas grid ∧
      grid.w = c0.validate.1.GridSize * c0.validate.1.ImgSizePx ∧
      grid.h = c0.validate.1.GridSize * c0.validate.1.ImgSizePx ∧
      ∀ i : Nat, albums.length ≤ i →
        Int.ofNat i < c0.validate.1.GridSize * c0.validate.1.GridSize →
        ∀ x y, 0 ≤ x → x < c0.validate.1.ImgSizePx → 0 ≤ y → y < c0.validate.1.ImgSizePx →
          grid.px (Int.ofNat i % c0.validate.1.GridSize * c0.validate.1.ImgSizePx + x)
            (Int.ofNat i / c0.validate.1.GridSize * c0.validate.1.ImgSizePx + y) =
              transparent := by
  obtain ⟨hworkers, grid, hout, hasm⟩ :=
    MakeTiledGrid_run W c0 lastfmID arrival albums hkey hfit hpool hq hcand
  obtain ⟨-, hs, hp⟩ := validate_ok c0 hkey
  obtain ⟨-, -, hpfit⟩ := fit_range c0.validate.1.GridSize c0.validate.1.ImgSizePx hs hp hfit
  have hmem : ∀ i : Nat,
      Int.ofNat i < c0.validate.1.GridSize * c0.validate.1.GridSize →
      i ∈ List.range (c0.validate.1.GridSize * c0.validate.1.GridSize).toNat := by
    intro i hi
    rw [List.mem_range]
    have : Int.ofNat i = (i : Int) := rfl
    generalize c0.validate.1.GridSize * c0.validate.1.GridSize = n at *
    omega
  have hlate : ∀ i : Nat, albums.length ≤ i → (urlFor albums i).getD "" = "" := by
    intro i hi
    have : albums.get? i = none := List.get?_eq_none.2 hi
    unfold urlFor
    rw [this]
    rfl
  refine ⟨?_, ?_, ?_, ?_⟩
  · rw [hworkers, List.map_map]
    rfl
  · intro i album hi hg
    obtain ⟨url, hurl⟩ := chooseImg_some album.Images (hcand i album hi hg)
    refine ⟨url, hurl, ?_⟩
    rw [hworkers]
    refine List.mem_map.2 ⟨i, hmem i hi, ?_⟩
    unfold urlFor
    rw [hg]
    simp only [hurl, Option.getD_some]
  · intro i hlen hi
    rw [hworkers]
    refine List.mem_map.2 ⟨i, hmem i hi, ?_⟩
    rw [hlate i hlen]
  · obtain ⟨hidx, hdim, htrail⟩ := receive_spec W c0.validate.1 (by omega) hpfit hpool
      (fun i => (urlFor albums i).getD "")
      (List.range (c0.validate.1.GridSize * c0.validate.1.GridSize).toNat) arrival (by
        intro i hi
        have := harr.subset hi
        unfold cellIndices at this
        obtain ⟨k, hk, rfl⟩ := List.mem_map.1 this
        exact ⟨k, hk, rfl⟩)
    obtain ⟨⟨g0, hg0, hw, hh⟩, -⟩ := grid_layout c0.validate.1 hs hp hfit
    have hgrid : grid = (receive W c0.validate.1
        ((List.range (c0.validate.1.GridSize * c0.validate.1.GridSize).toNat).map fun i =>
          (Int.ofNat i, (urlFor albums i).getD "")) arrival).foldl
        (pasteTile c0.validate.1) g0 := by
      unfold assemble at hasm
      rw [hg0] at hasm
      exact (Option.some.inj hasm).symm
    obtain ⟨hfw, hfh⟩ := foldl_pasteTile_size c0.validate.1
      (receive W c0.validate.1
        ((List.range (c0.validate.1.GridSize * c0.validate.1.GridSize).toNat).map fun i =>
          (Int.ofNat i, (urlFor albums i).getD "")) arrival) g0
    refine ⟨grid, hout, ?_, ?_, ?_⟩
    · rw [hgrid]; exact hfw.trans hw
    · rw [hgrid]; exact hfh.trans hh
    intro i hlen hi x y hx0 hx1 hy0 hy1
    have hin : Int.ofNat i ∈ arrival :=
      harr.symm.subset (List.mem_map_of_mem _ (hmem i hi))
    obtain ⟨t, ht, hti, htd, htp⟩ := htrail i (hmem i hi) hin (hlate i hlen)
    have hcell := foldl_pasteTile_cell c0.validate.1 hs hp hfit _ g0 hw hh
      (by rw [hidx]; exact harr.nodup_iff.2 (cellIndices_nodup _))
      (by
        intro t2 ht2
        have : t2.i ∈ arrival := by
          rw [← hidx]
          exact List.mem_map_of_mem _ ht2
        exact harr.subset this)
      hdim t ht htd x y hx0 hx1 hy0 hy1
    rw [hti] at hcell
    rw [hgrid, hcell]
    exact htp x y

/-- A 2 by 2 grid built from two albums, the results arriving in the order 3, 1, 0, 2: the
worker of cell 0 gets the extralarge URL of the first album and the worker of cell 3 the empty
URL. -/
theorem MakeTiledGrid_cells_witness :
    ((0 : Int), "http://a/xl.png") ∈
      (MakeTiledGrid twoAlbumWorld ⟨"key", "", 1, 2, none⟩ "rj" [3, 1, 0, 2]).workers ∧
    ((3 : Int), "") ∈
      (MakeTiledGrid twoAlbumWorld ⟨"key", "", 1, 2, none⟩ "rj" [3, 1, 0, 2]).workers := by
  have h := MakeTiledGrid_cells twoAlbumWorld ⟨"key", "", 1, 2, none⟩ "rj" [3, 1, 0, 2]
    [⟨[⟨"large", "http://a/large.png"⟩, ⟨"extralarge", "http://a/xl.png"⟩]⟩,
      ⟨[⟨"medium", "http://b/medium.png"⟩]⟩]
    (by decide) (by decide) (by decide) rfl
    (by
      intro i album _ hg
      rcases i with _ | _ | i
      · cases hg; simp
      · cases hg; simp
      · cases hg)
    (by decide)
  obtain ⟨url, hurl, hmem⟩ := h.2.1 0 _ (by decide) rfl
  have hx : url = "http://a/xl.png" := by
    have : chooseImg [⟨"large", "http://a/large.png"⟩, ⟨"extralarge", "http://a/xl.png"⟩] =
        some "http://a/xl.png" := rfl
    rw [this] at hurl
    exact (Option.some.inj hurl).symm
  rw [hx] at hmem
  exact ⟨hmem, h.2.2.1 3 (by decide) (by decide)⟩

/-- C6 as stated fails.  With GridSize 2^32 the product GridSize·GridSize wraps to 0:
`gridTiles` is 0 and the build starts no worker at all, though 0 is the index of a cell and
the provider returned fewer albums than cells; with ImgSizePx 2^31 the canvas it returns is
the empty image.  With GridSize 1 and ImgSizePx 2^31 the build panics in `imaging.New`
instead of returning a canvas.  With a limiter of capacity 0 the worker of the 1 by 1 grid
never sends its result and the build never returns. -/
theorem MakeTiledGrid_cells_overflow :
    (0 : Int) < 2 ^ 32 * 2 ^ 32 ∧
    notFoundWorld.getTopAlbums "key" "rj" "7day" 0 = .ok [] ∧
    gridTiles ⟨"key", "7day", 2 ^ 31, 2 ^ 32, some Logger.devNull⟩ = 0 ∧
    (MakeTiledGrid notFoundWorld ⟨"key", "7day", 2 ^ 31, 2 ^ 32, some Logger.devNull⟩ "rj"
      []).workers = [] ∧
    (MakeTiledGrid notFoundWorld ⟨"key", "7day", 2 ^ 31, 2 ^ 32, some Logger.devNull⟩ "rj"
      []).outcome = .canvas emptyImage ∧
    (MakeTiledGrid notFoundWorld ⟨"key", "7day", 2 ^ 31, 1, some Logger.devNull⟩ "rj"
      [0]).outcome = .panic ∧
    (MakeTiledGrid noSlotWorld ⟨"key", "7day", 174, 1, some Logger.devNull⟩ "rj"
      [0]).outcome = .blocked ∧
    (MakeTiledGrid noSlotWorld ⟨"key", "7day", 174, 1, some Logger.devNull⟩ "rj"
      [0]).workers = [(0, "")] :=
  ⟨by decide, rfl, by decide, rfl, rfl, rfl, rfl, rfl⟩

/-! ### `addTile` -/

/-- C7, with a limiter of capacity at least 1 and a cell size whose raster can be allocated:
`addTile` returns after sending exactly one result, which carries the index that was given.
With an empty URL nothing is fetched and the raster is the transparent placeholder, a square
of side ImgSizePx; when the fetch fails the raster is that placeholder and the failure is
only logged; when the fetch succeeds the raster is the fetched image resized, a square of
side ImgSizePx for a non-empty image and the empty image for an empty one.  The result
depends on the world only through the fetch of its own URL. -/
theorem addTile_total (W : World) (c : Config) (url : String) (i : Int)
    (hp : 0 < c.ImgSizePx) (hfit : 4 * c.ImgSizePx * c.ImgSizePx ≤ maxAlloc)
    (hpool : 1 ≤ W.poolSize) :
    ∃ img, (addTile W c url i).sent = [⟨img, i⟩] ∧
      (addTile W c url i).status = .returned ∧
      (url = "" → (addTile W c url i).requests = [] ∧
        imagingNew c.ImgSizePx c.ImgSizePx transparent = some img ∧
        img.w = c.ImgSizePx ∧ img.h = c.ImgSizePx ∧ ∀ x y, img.px x y = transparent) ∧
      (∀ err, url ≠ "" → (loadImg W url).result = .error err →
        imagingNew c.ImgSizePx c.ImgSizePx transparent = some img ∧
        img.w = c.ImgSizePx ∧ img.h = c.ImgSizePx ∧ (∀ x y, img.px x y = transparent) ∧
        (addTile W c url i).logged = [(url, err)]) ∧
      (∀ src, url ≠ "" → (loadImg W url).result = .ok src →
        imagingResize W.resample src c.ImgSizePx = some img ∧
        (0 < src.w → 0 < src.h → img.w = c.ImgSizePx ∧ img.h = c.ImgSizePx) ∧
        ((src.w ≤ 0 ∨ src.h ≤ 0) → img = emptyImage)) ∧
      (∀ W2 : World, W2.resample = W.resample → W2.poolSize = W.poolSize →
        (loadImg W2 url).result = (loadImg W url).result →
        (addTile W2 c url i).sent = (addTile W c url i).sent) := by
  obtain ⟨ph, hph, hw, hh, htr⟩ := placeholder_spec c.ImgSizePx hp hfit
  have hpool0 : ¬ W.poolSize ≤ 0 := by omega
  have hiso : ∀ W2 : World, W2.resample = W.resample → W2.poolSize = W.poolSize →
      (loadImg W2 url).result = (loadImg W url).result →
      (addTile W2 c url i).sent = (addTile W c url i).sent := by
    intro W2 hr hq hl
    unfold addTile
    rw [hq, if_neg hpool0, if_neg hpool0]
    by_cases hu : url = ""
    · have hnu : ¬ url ≠ "" := fun h => h hu
      rw [if_neg hnu, if_neg hnu]
      cases (imagingNew c.ImgSizePx c.ImgSizePx transparent) <;> rfl
    · rw [if_pos hu, if_pos hu, hl]
      cases (loadImg W url).result with
      | error e =>
        cases (imagingNew c.ImgSizePx c.ImgSizePx transparent) with
        | none => rfl
        | some im =>
          simp only [sendTile, hr, if_true]
          cases (imagingResize W.resample im c.ImgSizePx) <;> rfl
      | ok src =>
        simp only [sendTile, hr, if_true]
        cases (imagingResize W.resample src c.ImgSizePx) <;> rfl
  by_cases hu : url = ""
  · have hnu : ¬ url ≠ "" := fun h => h hu
    have hrun : addTile W c url i = ⟨[⟨ph, i⟩], [], [], .returned⟩ := by
      unfold addTile
      rw [if_neg hpool0, if_neg hnu, hph]
      rfl
    refine ⟨ph, by rw [hrun], by rw [hrun], ?_, ?_, ?_, hiso⟩
    · intro _
      exact ⟨by rw [hrun], hph, hw, hh, htr⟩
    · intro err hne
      exact absurd hu hne
    · intro src hne
      exact absurd hu hne
  · cases hl : (loadImg W url).result with
    | error e =>
      obtain ⟨out, hout, -, -, -, -, hsame⟩ :=
        imagingResize_spec W.resample ph c.ImgSizePx hp hfit
      have hout2 : out = ph := hsame ⟨hw, hh⟩
      subst hout2
      have hrun : addTile W c url i =
          ⟨[⟨out, i⟩], (loadImg W url).requests, [(url, e)], .returned⟩ := by
        unfold addTile
        rw [if_neg hpool0, if_pos hu, hl]
        simp only [hph, sendTile, if_true, hout]
      refine ⟨out, by rw [hrun], by rw [hrun], fun h => absurd h hu, ?_, ?_,
        fun W2 hr hq h2 => hiso W2 hr hq (h2.trans hl.symm)⟩
      · intro err _ herr
        cases herr
        exact ⟨hph, hw, hh, htr, by rw [hrun]⟩
      · intro src _ hsrc
        cases hsrc
    | ok src =>
      obtain ⟨out, hout, -, -, hempty, hfull, -⟩ :=
        imagingResize_spec W.resample src c.ImgSizePx hp hfit
      have hrun : addTile W c url i =
          ⟨[⟨out, i⟩], (loadImg W url).requests, [], .returned⟩ := by
        unfold addTile
        rw [if_neg hpool0, if_pos hu, hl]
        simp only [sendTile, if_true, hout]
      refine ⟨out, by rw [hrun], by rw [hrun], fun h => absurd h hu, ?_, ?_,
        fun W2 hr hq h2 => hiso W2 hr hq (h2.trans hl.symm)⟩
      · intro err _ herr
        cases herr
      · intro s2 _ hsrc
        cases hsrc
        exact ⟨hout, hfull, hempty⟩

/-- With the network down the worker for cell 4 still sends one result, tagged 4. -/
theorem addTile_total_witness :
    ((addTile offlineWorld ⟨"key", "7day", 2, 3, some Logger.devNull⟩ "http://img/4.png"
      4).sent.map fun t => t.i) = [4] := by
  obtain ⟨img, hsent, -⟩ := addTile_total offlineWorld
    ⟨"key", "7day", 2, 3, some Logger.devNull⟩ "http://img/4.png" 4 (by decide) (by decide)
    (by decide)
  rw [hsent]
  rfl

/-- C7 as stated fails.  When the fetched image is empty (width and height 0) the worker
sends the empty image, not a square of side 174.  With a limiter of capacity 0 the worker
blocks on `tilePool <- i` and sends nothing.  With ImgSizePx 2^31 the placeholder cannot be
allocated and the worker panics. -/
theorem addTile_not_total :
    (loadImg emptyImageWorld "http://img/0.bmp").result = .ok emptyImage ∧
    ((addTile emptyImageWorld ⟨"key", "7day", 174, 3, some Logger.devNull⟩ "http://img/0.bmp"
      0).sent.map fun t => (t.i, t.img.w, t.img.h)) = [(0, 0, 0)] ∧
    (addTile noSlotWorld ⟨"key", "7day", 174, 3, some Logger.devNull⟩ "" 0).sent = [] ∧
    (addTile noSlotWorld ⟨"key", "7day", 174, 3, some Logger.devNull⟩ "" 0).status =
      .blocked ∧
    (addTile offlineWorld ⟨"key", "7day", 2 ^ 31, 3, some Logger.devNull⟩ "" 0).status =
      .panicked :=
  ⟨rfl, rfl, rfl, rfl, rfl⟩

/-! ### The limiter `tilePool` -/

/-- Replacing one element of a list changes the count of a predicate by the difference
between the new and the old element. -/
theorem countP_set_phase (p : Phase → Bool) (l : List Phase) (k : Nat) (old x : Phase)
    (h : l.get? k = some old) :
    (l.set k x).countP p + (if p old then 1 else 0) = l.countP p + (if p x then 1 else 0) := by
  induction l generalizing k with
  | nil => simp at h
  | cons a t ih =>
    cases k with
    | zero =>
      simp only [List.get?_cons_zero, Option.some.injEq] at h
      subst h
      simp only [List.set_cons_zero, List.countP_cons]
      omega
    | succ k =>
      simp only [List.get?_cons_succ] at h
      have := ih k h
      simp only [List.set_cons_succ, List.countP_cons]
      omega

/-- Every enabled step keeps the number of holders equal to the number of buffered values and
at most the capacity. -/
theorem step_inv (cap : Nat) (s s1 : PoolState) (a : Action) (h : step cap s a = some s1)
    (hinv : holders s = s.tilePool ∧ s.tilePool ≤ cap) :
    holders s1 = s1.tilePool ∧ s1.tilePool ≤ cap := by
  obtain ⟨hh, hc⟩ := hinv
  unfold holders at hh ⊢
  cases a with
  | spawn =>
    simp only [step, Option.some.injEq] at h
    subst h
    simp [List.countP_append, Phase.holds, hh, hc]
  | acquire k =>
    simp only [step] at h
    split_ifs at h with hcond
    simp only [Option.some.injEq] at h
    subst h
    have := countP_set_phase Phase.holds s.workers k Phase.waiting Phase.working hcond.1
    simp [Phase.holds] at this
    simp only
    omega
  | emit k path =>
    simp only [step] at h
    split_ifs at h with hcond
    simp only [Option.some.injEq] at h
    subst h
    have := countP_set_phase Phase.holds s.workers k Phase.working (Phase.emitted path) hcond
    simp [Phase.holds] at this
    simp only
    omega
  | release k =>
    simp only [step] at h
    split_ifs at h with hcond
    simp only [Option.some.injEq] at h
    subst h
    obtain ⟨hem, hpos⟩ := hcond
    cases hg : s.workers.get? k with
    | none =>
      rw [hg] at hem
      simp at hem
    | some ph =>
      cases ph with
      | emitted path =>
        have := countP_set_phase Phase.holds s.workers k (Phase.emitted path) Phase.done hg
        simp [Phase.holds] at this
        simp only
        omega
      | waiting =>
        rw [hg] at hem
        simp [Phase.isEmitted] at hem
      | working =>
        rw [hg] at hem
        simp [Phase.isEmitted] at hem
      | done =>
        rw [hg] at hem
        simp [Phase.isEmitted] at hem
  | handoff k j =>
    simp only [step] at h
    split_ifs at h with hcond
    simp only [Option.some.injEq] at h
    subst h
    obtain ⟨hw, hem, -⟩ := hcond
    cases hg : s.workers.get? j with
    | none =>
      rw [hg] at hem
      simp at hem
    | some ph =>
      cases ph with
      | emitted path =>
        have hjk : k ≠ j := by
          intro hkj
          rw [hkj, hg] at hw
          cases hw
        have h1 := countP_set_phase Phase.holds s.workers k Phase.waiting Phase.working hw
        have hg2 : (s.workers.set k Phase.working).get? j = some (Phase.emitted path) := by
          rw [List.get?_eq_getElem?, List.getElem?_set_ne hjk, ← List.get?_eq_getElem?]
          exact hg
        have h2 := countP_set_phase Phase.holds (s.workers.set k Phase.working) j
          (Phase.emitted path) Phase.done hg2
        simp [Phase.holds] at h1 h2
        simp only
        omega
      | waiting =>
        rw [hg] at hem
        simp [Phase.isEmitted] at hem
      | working =>
        rw [hg] at hem
        simp [Phase.isEmitted] at hem
      | done =>
        rw [hg] at hem
        simp [Phase.isEmitted] at hem

/-- The invariant holds in every state a schedule reaches. -/
theorem run_inv (cap : Nat) (acts : List Action) (s s1 : PoolState)
    (h : run cap s acts = some s1) (hinv : holders s = s.tilePool ∧ s.tilePool ≤ cap) :
    holders s1 = s1.tilePool ∧ s1.tilePool ≤ cap := by
  induction acts generalizing s with
  | nil =>
    simp only [run, Option.some.injEq] at h
    subst h
    exact hinv
  | cons a rest ih =>
    simp only [run] at h
    cases hs : step cap s a with
    | none => simp [hs] at h
    | some s2 =>
      rw [hs] at h
      exact ih s2 h (step_inv cap s s2 a hs hinv)

/-- C8, as the code has it: the capacity of `tilePool` is fixed by `init` to 5 when the
setting does not parse as an integer, and to the parsed integer when it is not negative and
the channel can be allocated; for every other parsed integer `init` panics.  When `init`
succeeds, then in every state that a schedule of the `addTile` goroutines of the process
reaches, whichever calls of `MakeTiledGrid` started them, the number of goroutines between
their send into `tilePool` and their deferred receive equals the number of buffered values and
is at most the capacity; and the deferred receive of a goroutine that has sent its result is
always enabled, on each of the three paths through the body. -/
theorem tilePool_bound (getenv : String → String) (atoi : String → Option Int) :
    (atoi (getenv FMTILE_POOL_SIZE) = none → init getenv atoi = some 5) ∧
    (∀ i, atoi (getenv FMTILE_POOL_SIZE) = some i → 0 ≤ i → 8 * i ≤ maxAlloc - hchanSize →
      init getenv atoi = some i) ∧
    (∀ i, atoi (getenv FMTILE_POOL_SIZE) = some i → (i < 0 ∨ 8 * i > maxAlloc - hchanSize) →
      init getenv atoi = none) ∧
    ∀ cap, init getenv atoi = some cap → ∀ acts s,
      run cap.toNat PoolState.initial acts = some s →
      0 ≤ cap ∧ (holders s : Int) ≤ cap ∧ holders s = s.tilePool ∧
      ∀ k path, s.workers.get? k = some (Phase.emitted path) →
        ∃ s1, step cap.toNat s (.release k) = some s1 ∧
          s1.workers.get? k = some Phase.done ∧ holders s1 + 1 = holders s := by
  refine ⟨?_, ?_, ?_, ?_⟩
  · intro h
    simp [init, h]
  · intro i h h0 h1
    have hc : ¬ (i < 0 ∨ 8 * i > maxAlloc - hchanSize) := by omega
    simp only [init, h, if_neg hc]
  · intro i h hbad
    simp only [init, h, if_pos hbad]
  · intro cap hinit acts s hrun
    have hcap : 0 ≤ cap := by
      unfold init at hinit
      cases hparsed : atoi (getenv FMTILE_POOL_SIZE) with
      | none =>
        rw [hparsed] at hinit
        simp only [Option.some.injEq] at hinit
        omega
      | some i =>
        rw [hparsed] at hinit
        simp only at hinit
        split_ifs at hinit with hbad
        simp only [Option.some.injEq] at hinit
        omega
    obtain ⟨hinv1, hinv2⟩ := run_inv cap.toNat acts PoolState.initial s hrun
      ⟨rfl, Nat.zero_le _⟩
    refine ⟨hcap, by omega, hinv1, ?_⟩
    intro k path hk
    have hmem : Phase.emitted path ∈ s.workers := List.get?_mem hk
    have hpos : 0 < holders s := by
      unfold holders
      exact List.countP_pos_iff.2 ⟨Phase.emitted path, hmem, rfl⟩
    have hstep : step cap.toNat s (.release k) =
        some ⟨s.tilePool - 1, s.workers.set k Phase.done⟩ := by
      simp only [step]
      rw [if_pos]
      rw [hk]
      exact ⟨rfl, by omega⟩
    refine ⟨_, hstep, ?_, ?_⟩
    · have hlt : k < s.workers.length := by
        rcases Nat.lt_or_ge k s.workers.length with h | h
        · exact h
        · rw [List.get?_eq_none.2 h] at hk
          cases hk
      rw [List.get?_eq_getElem?, List.getElem?_set_self hlt]
    · have := countP_set_phase Phase.holds s.workers k (Phase.emitted path) Phase.done hk
      simp [Phase.holds] at this
      unfold holders
      simp only
      omega

/-- The setting "2" gives capacity 2; the sample schedule ends with two holders, and while
two workers hold a slot the third cannot be admitted. -/
theorem tilePool_bound_witness :
    init (fun _ => "2") (fun v => if v = "2" then some 2 else none) = some 2 ∧
    run 2 PoolState.initial sampleSchedule =
      some ⟨2, [Phase.done, Phase.working, Phase.working]⟩ ∧
    holders ⟨2, [Phase.done, Phase.working, Phase.working]⟩ = 2 ∧
    step 2 ⟨2, [Phase.working, Phase.working, Phase.waiting]⟩ (.acquire 2) = none :=
  ⟨(tilePool_bound (fun _ => "2") (fun v => if v = "2" then some 2 else none)).2.1 2 rfl
      (by decide) (by decide),
    by decide,
    ((tilePool_bound (fun _ => "2") (fun v => if v = "2" then some 2 else none)).2.2.2 2 rfl
      sampleSchedule ⟨2, [Phase.done, Phase.working, Phase.working]⟩ (by decide)).2.2.1,
    by decide⟩

/-- C8 as stated fails: "-3" parses as the integer -3 and `make(chan int, -3)` panics during
package initialisation, so no limiter of that capacity exists (and the number of holders, 0,
is not at most -3); "4611686018427387904" parses as 2^62 and `make(chan int, 2^62)` panics as
well, because the channel cannot be allocated. -/
theorem tilePool_negative_size :
    init (fun _ => "-3") (fun v => if v = "-3" then some (-3) else none) = none ∧
    holders PoolState.initial = 0 ∧
    ¬ ((holders PoolState.initial : Int) ≤ -3) ∧
    init (fun _ => "4611686018427387904")
      (fun v => if v = "4611686018427387904" then some (2 ^ 62) else none) = none := by
  decide

end LastfmTiler
